import Mathlib

/-!
# Handlers of the azurerm provider: Private Link Service, Private Link Endpoint
Connection, Advisor Recommendations

A shallow embedding of the handlers and of their expand / flatten helpers.
Calls into the vendor SDK and into the plugin SDK are not part of the
repository: the outcome of every such call is an input of the embedded handler
(one field per call site), so that a statement quantified over these inputs
speaks about every behaviour of the remote API. Every handler returns the
resource data it leaves behind, the value it returns, and the list of the
calls and writes it made, in order.
-/

set_option autoImplicit false

namespace Azurerm

/-! ## Flat attribute values -/

/-- A Go `interface{}` value as it occurs inside the flat attribute maps. -/
inductive Value where
  | str (s : String)
  | bool (b : Bool)
  | list (xs : List String)
  deriving DecidableEq, Repr

/-- A Go `map[string]interface{}`, as an association list; the first binding
of a key is the live one. -/
abbrev TfMap := List (String × Value)

/-- Go `m[k]`: the value bound to `k`, `none` for the nil interface of a
missing key. -/
def TfMap.at (m : TfMap) (k : String) : Option Value :=
  List.lookup k m

/-- Go `m[k] = v`: overwrite the binding of `k`, or add one. -/
def TfMap.put : TfMap → String → Value → TfMap
  | [], k, v => [(k, v)]
  | (k', v') :: m, k, v => if k' = k then (k, v) :: m else (k', v') :: TfMap.put m k v

/-- Go `x.(string)`: `none` is the run-time panic of a failed type assertion. -/
def asString : Option Value → Option String
  | some (Value.str s) => some s
  | _ => none

/-- Go `x.(bool)`: `none` is the run-time panic of a failed type assertion. -/
def asBool : Option Value → Option Bool
  | some (Value.bool b) => some b
  | _ => none

/-- Two maps hold the same key/value pairs. -/
def MapEq (a b : TfMap) : Prop :=
  ∀ k : String, a.at k = b.at k

/-! ## Vendor API structures (`network` package), pointers as `Option` -/

/-- The embedded `*http.Response`: `none` is nil, otherwise the status code. -/
abbrev HttpResponse := Option Nat

/-- Go `network.Subnet`, the field read by this code. -/
structure Subnet where
  ID : Option String
  deriving DecidableEq, Repr

/-- Go `network.PrivateLinkServiceIPConfigurationProperties`. -/
structure PrivateLinkServiceIPConfigurationProperties where
  PrivateIPAddress : Option String
  PrivateIPAllocationMethod : String
  Subnet : Option Subnet
  Primary : Option Bool
  PrivateIPAddressVersion : String
  deriving DecidableEq, Repr

/-- Go `network.PrivateLinkServiceIPConfiguration`. -/
structure PrivateLinkServiceIPConfiguration where
  Name : Option String
  Properties : Option PrivateLinkServiceIPConfigurationProperties
  deriving DecidableEq, Repr

/-- Go `network.FrontendIPConfiguration`, the field used by this code. -/
structure FrontendIPConfiguration where
  ID : Option String
  deriving DecidableEq, Repr

/-- Go `network.InterfaceIPConfigurationPropertiesFormat`, the field read. -/
structure InterfaceIPConfigurationPropertiesFormat where
  PrivateIPAddress : Option String
  deriving DecidableEq, Repr

/-- Go `network.InterfaceIPConfiguration`. -/
structure InterfaceIPConfiguration where
  Properties : Option InterfaceIPConfigurationPropertiesFormat
  deriving DecidableEq, Repr

/-- Go `network.InterfacePropertiesFormat`, the field read. -/
structure InterfacePropertiesFormat where
  IPConfigurations : Option (List InterfaceIPConfiguration)
  deriving DecidableEq, Repr

/-- Go `network.Interface`. -/
structure Interface where
  Response : HttpResponse
  ID : Option String
  Properties : Option InterfacePropertiesFormat
  deriving DecidableEq, Repr

/-- Go `network.PrivateLinkServicePropertiesAutoApproval` and
`network.PrivateLinkServicePropertiesVisibility`: both hold `Subscriptions`. -/
structure ResourceSet where
  Subscriptions : Option (List String)
  deriving DecidableEq, Repr

/-- Go `network.PrivateLinkServiceProperties`. -/
structure PrivateLinkServiceProperties where
  LoadBalancerFrontendIPConfigurations : Option (List FrontendIPConfiguration)
  IPConfigurations : Option (List PrivateLinkServiceIPConfiguration)
  NetworkInterfaces : Option (List Interface)
  ProvisioningState : String
  Visibility : Option ResourceSet
  AutoApproval : Option ResourceSet
  Alias : Option String
  deriving DecidableEq, Repr

/-- Go `network.PrivateLinkService`. -/
structure PrivateLinkService where
  Response : HttpResponse
  Properties : Option PrivateLinkServiceProperties
  ID : Option String
  Name : Option String
  Location : Option String
  Tags : List (String × Option String)
  deriving DecidableEq, Repr

/-! ## expand / flatten of the NAT IP configurations -/

/-- Go `result.PrivateLinkServiceIPConfigurationProperties.PrivateIPAllocationMethod = m`
(the properties pointer is never nil where the source assigns through it). -/
def setPrivateIPAllocationMethod (result : PrivateLinkServiceIPConfiguration) (m : String) :
    PrivateLinkServiceIPConfiguration :=
  match result.Properties with
  | some p => { result with Properties := some { p with PrivateIPAllocationMethod := m } }
  | none => result

/-- The body of the loop of `expandArmPrivateLinkServiceIPConfiguration`. -/
def expandIPConfigurationItem (v : TfMap) : Option PrivateLinkServiceIPConfiguration :=
  match asString (v.at "private_ip_address") with
  | none => none
  | some privateIpAddress =>
    match asString (v.at "subnet_id") with
    | none => none
    | some subnetId =>
      match asString (v.at "private_ip_address_version") with
      | none => none
      | some privateIpAddressVersion =>
        match asString (v.at "name") with
        | none => none
        | some name =>
          match asBool (v.at "primary") with
          | none => none
          | some primary =>
            let result : PrivateLinkServiceIPConfiguration :=
              { Name := some name
                Properties := some
                  { PrivateIPAddress := some privateIpAddress
                    PrivateIPAllocationMethod := ""
                    PrivateIPAddressVersion := privateIpAddressVersion
                    Subnet := some { ID := some subnetId }
                    Primary := some primary } }
            if privateIpAddress ≠ "" then
              some (setPrivateIPAllocationMethod result "Static")
            else
              some (setPrivateIPAllocationMethod result "Dynamic")

/-- The loop of `expandArmPrivateLinkServiceIPConfiguration`, `results` being
the slice built so far; `none` is a panic. -/
def expandIPConfigurationLoop :
    List TfMap → List PrivateLinkServiceIPConfiguration →
      Option (List PrivateLinkServiceIPConfiguration)
  | [], results => some results
  | item :: rest, results =>
    match expandIPConfigurationItem item with
    | none => none
    | some result => expandIPConfigurationLoop rest (results ++ [result])

/-- Go `expandArmPrivateLinkServiceIPConfiguration`. The outer `Option` is a
panic (`none`), the inner one the returned pointer (`none` is nil). -/
def expandArmPrivateLinkServiceIPConfiguration (input : List TfMap) :
    Option (Option (List PrivateLinkServiceIPConfiguration)) :=
  if input.length = 0 then
    some none
  else
    match expandIPConfigurationLoop input [] with
    | none => none
    | some results => some (some results)

/-- The body of the loop of `flattenArmPrivateLinkServiceIPConfiguration`. -/
def flattenIPConfigurationItem (item : PrivateLinkServiceIPConfiguration) : TfMap :=
  let c : TfMap := []
  let c := match item.Name with
    | some name => c.put "name" (Value.str name)
    | none => c
  match item.Properties with
  | some props =>
    let c := match props.PrivateIPAddress with
      | some v => c.put "private_ip_address" (Value.str v)
      | none => c
    let c := c.put "private_ip_address_version" (Value.str props.PrivateIPAddressVersion)
    let c := match props.Subnet with
      | some v =>
        match v.ID with
        | some i => c.put "subnet_id" (Value.str i)
        | none => c
      | none => c
    match props.Primary with
    | some v => c.put "primary" (Value.bool v)
    | none => c
  | none => c

/-- The loop of `flattenArmPrivateLinkServiceIPConfiguration`. -/
def flattenIPConfigurationLoop :
    List PrivateLinkServiceIPConfiguration → List TfMap → List TfMap
  | [], results => results
  | item :: rest, results =>
    flattenIPConfigurationLoop rest (results ++ [flattenIPConfigurationItem item])

/-- Go `flattenArmPrivateLinkServiceIPConfiguration`. -/
def flattenArmPrivateLinkServiceIPConfiguration
    (input : Option (List PrivateLinkServiceIPConfiguration)) : List TfMap :=
  let results : List TfMap := []
  match input with
  | none => results
  | some xs => flattenIPConfigurationLoop xs results

/-- The keys of a `nat_ip_configuration` element, as its schema declares them. -/
def natIpConfigurationKeys : List String :=
  ["name", "private_ip_address", "private_ip_address_version", "subnet_id", "primary"]

/-- A map has exactly the keys of a `nat_ip_configuration` element, each at
its schema type. -/
def HasNatIpShape (m : TfMap) : Prop :=
  (∃ s, m.at "name" = some (Value.str s)) ∧
  (∃ s, m.at "private_ip_address" = some (Value.str s)) ∧
  (∃ s, m.at "private_ip_address_version" = some (Value.str s)) ∧
  (∃ s, m.at "subnet_id" = some (Value.str s)) ∧
  (∃ b, m.at "primary" = some (Value.bool b)) ∧
  ∀ k : String, k ∉ natIpConfigurationKeys → m.at k = none

/-! ## schema.Set of strings -/

/-- The plugin SDK's `schema.Set` with hash function `F`: the elements, in
the order they were added. Two elements never share a hash code. The order in
which `List()` returns the elements is not modelled beyond that. -/
abbrev SchemaSet := List String

/-- The plugin SDK's `(*schema.Set).Add` under the hash function `F`: the item is
stored under its hash code unless that code is already taken. -/
def SchemaSet.Add (F : String → Int) (s : SchemaSet) (item : String) : SchemaSet :=
  if s.any (fun y => F y == F item) then s else s ++ [item]

/-- The plugin SDK's `(*schema.Set).List`. -/
def SchemaSet.List (s : SchemaSet) : List String := s

/-- The elements of `s` have pairwise different hash codes under `F`: `s` is
a set built with `F`. -/
def SchemaSet.IsSet (F : String → Int) (s : SchemaSet) : Prop :=
  (s.map F).Nodup

/-- The loop of `expandArmPrivateLinkServiceFrontendIPConfiguration`. -/
def expandFrontendIPConfigurationLoop :
    List String → List FrontendIPConfiguration → List FrontendIPConfiguration
  | [], results => results
  | item :: rest, results =>
    let result : FrontendIPConfiguration := { ID := some item }
    expandFrontendIPConfigurationLoop rest (results ++ [result])

/-- Go `expandArmPrivateLinkServiceFrontendIPConfiguration`; `none` is nil. -/
def expandArmPrivateLinkServiceFrontendIPConfiguration (input : SchemaSet) :
    Option (List FrontendIPConfiguration) :=
  let ids := input.List
  if ids.length = 0 then
    none
  else
    some (expandFrontendIPConfigurationLoop ids [])

/-- The loop of `flattenArmPrivateLinkServiceFrontendIPConfiguration`. -/
def flattenFrontendIPConfigurationLoop (F : String → Int) :
    List FrontendIPConfiguration → SchemaSet → SchemaSet
  | [], results => results
  | item :: rest, results =>
    match item.ID with
    | some id => flattenFrontendIPConfigurationLoop F rest (SchemaSet.Add F results id)
    | none => flattenFrontendIPConfigurationLoop F rest results

/-- Go `flattenArmPrivateLinkServiceFrontendIPConfiguration`, `F` being
`schema.HashString`. -/
def flattenArmPrivateLinkServiceFrontendIPConfiguration (F : String → Int)
    (input : Option (List FrontendIPConfiguration)) : SchemaSet :=
  let results : SchemaSet := []
  match input with
  | none => results
  | some xs => flattenFrontendIPConfigurationLoop F xs results

/-- Go `flattenArmPrivateLinkServiceInterface`, `F` being `schema.HashString`. -/
def flattenInterfaceLoop (F : String → Int) : List Interface → SchemaSet → SchemaSet
  | [], results => results
  | item :: rest, results =>
    match item.ID with
    | some id => flattenInterfaceLoop F rest (SchemaSet.Add F results id)
    | none => flattenInterfaceLoop F rest results

/-- Go `flattenArmPrivateLinkServiceInterface`. -/
def flattenArmPrivateLinkServiceInterface (F : String → Int)
    (input : Option (List Interface)) : SchemaSet :=
  let results : SchemaSet := []
  match input with
  | none => results
  | some xs => flattenInterfaceLoop F xs results

/-! ## Resource data, helpers from outside the sources, handler results -/

/-- A value read from, or handed to, the plugin SDK's `*schema.ResourceData`. -/
inductive AttrValue where
  | str (s : String)
  | strPtr (p : Option String)
  | strList (xs : List String)
  | mapList (xs : List TfMap)
  | set (s : SchemaSet)
  | map (m : TfMap)
  deriving DecidableEq, Repr

/-- The plugin SDK's `*schema.ResourceData`: the resource ID, whether the
resource is new, and the attributes. -/
structure ResourceData where
  id : String
  isNewResource : Bool
  attrs : List (String × AttrValue)
  deriving DecidableEq, Repr

/-- Go `d.Get(key).(string)`; an unset attribute reads as the zero value. -/
def ResourceData.GetString (d : ResourceData) (key : String) : String :=
  match List.lookup key d.attrs with
  | some (AttrValue.str s) => s
  | _ => ""

/-- Go `d.Get(key).(*schema.Set)`. -/
def ResourceData.GetSet (d : ResourceData) (key : String) : SchemaSet :=
  match List.lookup key d.attrs with
  | some (AttrValue.set s) => s
  | _ => []

/-- Go `d.Get(key).([]interface{})` for a list of nested resources. -/
def ResourceData.GetList (d : ResourceData) (key : String) : List TfMap :=
  match List.lookup key d.attrs with
  | some (AttrValue.mapList xs) => xs
  | _ => []

/-- Go `d.Get(key).(map[string]interface{})`. -/
def ResourceData.GetMap (d : ResourceData) (key : String) : TfMap :=
  match List.lookup key d.attrs with
  | some (AttrValue.map m) => m
  | _ => []

/-- Go `d.SetId(id)`. -/
def ResourceData.SetId (d : ResourceData) (id : String) : ResourceData :=
  { d with id := id }

/-- Overwrite the binding of `key` in the attributes, or add one. -/
def putAttr : List (String × AttrValue) → String → AttrValue → List (String × AttrValue)
  | [], k, v => [(k, v)]
  | (k', v') :: m, k, v => if k' = k then (k, v) :: m else (k', v') :: putAttr m k v

/-- The result of `azure.ParseAzureResourceID`, the fields read by this code. -/
structure ResourceID where
  ResourceGroup : String
  Path : List (String × String)
  deriving DecidableEq, Repr

/-- Go `id.Path[key]` on a `map[string]string`: the zero value if missing. -/
def ResourceID.path (id : ResourceID) (key : String) : String :=
  (List.lookup key id.Path).getD ""

/-- The functions this code calls whose bodies are not among the sources;
every statement below holds whatever they compute. -/
structure Helpers where
  /-- `azure.ParseAzureResourceID` -/
  ParseAzureResourceID : String → Except String ResourceID
  /-- `utils.ResponseWasNotFound` -/
  ResponseWasNotFound : HttpResponse → Bool
  /-- `response.WasNotFound` -/
  WasNotFound : HttpResponse → Bool
  /-- `azure.NormalizeLocation` -/
  NormalizeLocation : String → String
  /-- `features.ShouldResourcesBeImported()` -/
  ShouldResourcesBeImported : Bool
  /-- `tf.ImportAsExistsError(resourceName, id)`, the text of the error -/
  ImportAsExistsError : String → String → String
  /-- `schema.HashString` -/
  HashString : String → Int
  /-- `utils.ExpandStringSlice` -/
  ExpandStringSlice : List String → Option (List String)
  /-- `utils.FlattenStringSlice` -/
  FlattenStringSlice : Option (List String) → List String
  /-- `tags.Expand` -/
  tagsExpand : TfMap → List (String × Option String)
  /-- `tags.Flatten`, as called by `tags.FlattenAndSet` -/
  tagsFlatten : List (String × Option String) → TfMap
  /-- The `%q` verb of `fmt` -/
  quote : String → String
  /-- The error of `d.Set(key, value)`, `none` when the write is accepted -/
  SetError : String → AttrValue → Option String

/-- What a handler returns: nil, an error with its text, or a run-time panic
(nil pointer dereference, failed type assertion). -/
inductive Ret where
  | nil
  | error (msg : String)
  | panic
  deriving DecidableEq, Repr

/-- The calls into the SDKs and the writes to the resource data that a
handler makes. -/
inductive Event where
  | get (resourceGroup name : String)
  | createOrUpdate (resourceGroup name : String) (parameters : PrivateLinkService)
  | waitForCompletion
  | waitForState
  | delete (resourceGroup name : String)
  | endpointGet (resourceGroup name : String)
  | interfaceGet (resourceGroup name : String)
  | listComplete (filter : String)
  | nextWithContext
  | setId (id : String)
  | set (key : String) (value : AttrValue)
  | read
  deriving DecidableEq, Repr

/-- The resource data and the calls and writes made so far. -/
structure St where
  d : ResourceData
  trace : List Event
  deriving DecidableEq, Repr

/-- What a handler leaves behind. -/
structure Outcome where
  d : ResourceData
  ret : Ret
  trace : List Event
  deriving DecidableEq, Repr

/-- Record a call into an SDK. -/
def St.call (st : St) (e : Event) : St :=
  { st with trace := st.trace ++ [e] }

/-- Go `d.SetId(id)`, recorded. -/
def St.SetId (st : St) (id : String) : St :=
  { d := st.d.SetId id, trace := st.trace ++ [Event.setId id] }

/-- Go `d.Set(key, value)`, recorded: the attribute is written unless the
plugin SDK rejects the write, and the error of the write is returned. -/
def St.Set (h : Helpers) (st : St) (key : String) (value : AttrValue) : St × Option String :=
  match h.SetError key value with
  | some err => ({ st with trace := st.trace ++ [Event.set key value] }, some err)
  | none =>
    ({ d := { st.d with attrs := putAttr st.d.attrs key value },
       trace := st.trace ++ [Event.set key value] }, none)

/-- Leave the handler with the value `ret`. -/
def St.done (st : St) (ret : Ret) : Outcome :=
  { d := st.d, ret := ret, trace := st.trace }

/-- Go `tags.FlattenAndSet(d, tagMap)`: its body is not among the sources; it
writes the flattened tags to `tags` and wraps the error of that write. -/
def tagsFlattenAndSet (h : Helpers) (st : St) (tagMap : List (String × Option String)) :
    St × Option String :=
  match St.Set h st "tags" (AttrValue.map (h.tagsFlatten tagMap)) with
  | (st, some err) => (st, some ("Error setting `tags`: " ++ err))
  | (st, none) => (st, none)

/-! ## azurerm_private_link_service: Read -/

/-- The writes of `resourceArmPrivateLinkServiceRead` for non-nil properties
(the body of `if props := resp.PrivateLinkServiceProperties; props != nil`):
`some ret` when the handler returns from inside the block. -/
def readProperties (h : Helpers) (props : PrivateLinkServiceProperties) (st : St) :
    St × Option Ret :=
  let st := (St.Set h st "alias" (AttrValue.strPtr props.Alias)).1
  match props.AutoApproval with
  | none => (st, some Ret.panic)
  | some autoApproval =>
  match St.Set h st "auto_approval_subscription_ids"
      (AttrValue.strList (h.FlattenStringSlice autoApproval.Subscriptions)) with
  | (st, some err) =>
    (st, some (Ret.error ("Error setting `auto_approval_subscription_ids`: " ++ err)))
  | (st, none) =>
  match props.Visibility with
  | none => (st, some Ret.panic)
  | some visibility =>
  match St.Set h st "visibility_subscription_ids"
      (AttrValue.strList (h.FlattenStringSlice visibility.Subscriptions)) with
  | (st, some err) =>
    (st, some (Ret.error ("Error setting `visibility_subscription_ids`: " ++ err)))
  | (st, none) =>
  match St.Set h st "nat_ip_configuration"
      (AttrValue.mapList (flattenArmPrivateLinkServiceIPConfiguration props.IPConfigurations)) with
  | (st, some err) =>
    (st, some (Ret.error ("Error setting `nat_ip_configuration`: " ++ err)))
  | (st, none) =>
  match St.Set h st "load_balancer_frontend_ip_configuration_ids"
      (AttrValue.set (flattenArmPrivateLinkServiceFrontendIPConfiguration h.HashString
        props.LoadBalancerFrontendIPConfigurations)) with
  | (st, some err) =>
    (st, some (Ret.error
      ("Error setting `load_balancer_frontend_ip_configuration_ids`: " ++ err)))
  | (st, none) =>
  match St.Set h st "network_interface_ids"
      (AttrValue.set (flattenArmPrivateLinkServiceInterface h.HashString
        props.NetworkInterfaces)) with
  | (st, some err) =>
    (st, some (Ret.error ("Error setting `network_interface_ids`: " ++ err)))
  | (st, none) => (st, none)

/-- Go `resourceArmPrivateLinkServiceRead(d, meta)`; `get` is what `client.Get`
returns. -/
def resourceArmPrivateLinkServiceRead (h : Helpers) (get : PrivateLinkService × Option String)
    (d : ResourceData) : Outcome :=
  let st : St := { d := d, trace := [] }
  match h.ParseAzureResourceID d.id with
  | Except.error err => st.done (Ret.error err)
  | Except.ok id =>
    let resourceGroup := id.ResourceGroup
    let name := id.path "privateLinkServices"
    let st := st.call (Event.get resourceGroup name)
    let resp := get.1
    match get.2 with
    | some err =>
      if h.ResponseWasNotFound resp.Response then
        (st.SetId "").done Ret.nil
      else
        st.done (Ret.error ("Error reading Private Link Service " ++ h.quote name ++
          " (Resource Group " ++ h.quote resourceGroup ++ "): " ++ err))
    | none =>
      let st := (St.Set h st "name" (AttrValue.strPtr resp.Name)).1
      let st := (St.Set h st "resource_group_name" (AttrValue.str resourceGroup)).1
      match resp.Location with
      | none => st.done Ret.panic
      | some location =>
        let st := (St.Set h st "location" (AttrValue.str (h.NormalizeLocation location))).1
        let r : St × Option Ret :=
          match resp.Properties with
          | some props => readProperties h props st
          | none => (st, none)
        match r with
        | (st, some ret) => st.done ret
        | (st, none) =>
          match tagsFlattenAndSet h st resp.Tags with
          | (st, some err) => st.done (Ret.error err)
          | (st, none) => st.done Ret.nil

/-! ## azurerm_private_link_service: Create / Update -/

/-- What the calls made by `resourceArmPrivateLinkServiceCreateUpdate` return,
one field per call site, `none` being a nil error. -/
structure CreateUpdateCalls where
  /-- `client.Get` of the import check -/
  existing : PrivateLinkService × Option String
  /-- The error of `client.CreateOrUpdate` -/
  createOrUpdate : Option String
  /-- The error of `future.WaitForCompletionRef` -/
  waitForCompletion : Option String
  /-- `client.Get` after the creation -/
  get : PrivateLinkService × Option String
  /-- The error of `stateConf.WaitForState` -/
  waitForState : Option String
  /-- `client.Get` made by `resourceArmPrivateLinkServiceRead` -/
  read : PrivateLinkService × Option String

/-- The text `%+v` prints for an error value, `<nil>` for the nil error. -/
def errText : Option String → String
  | some e => e
  | none => "<nil>"

/-- The request built by `resourceArmPrivateLinkServiceCreateUpdate`
(`parameters`); `none` is a panic of the expansion. -/
def createUpdateParameters (h : Helpers) (d : ResourceData) : Option PrivateLinkService :=
  let location := h.NormalizeLocation (d.GetString "location")
  let autoApproval := d.GetSet "auto_approval_subscription_ids"
  let primaryIpConfiguration := d.GetList "nat_ip_configuration"
  let loadBalancerFrontendIpConfigurations :=
    d.GetSet "load_balancer_frontend_ip_configuration_ids"
  let visibility := d.GetSet "visibility_subscription_ids"
  let t := d.GetMap "tags"
  match expandArmPrivateLinkServiceIPConfiguration primaryIpConfiguration with
  | none => none
  | some ipConfigurations =>
    some
      { Response := none
        ID := none
        Name := none
        Location := some location
        Properties := some
          { AutoApproval := some { Subscriptions := h.ExpandStringSlice autoApproval.List }
            Visibility := some { Subscriptions := h.ExpandStringSlice visibility.List }
            IPConfigurations := ipConfigurations
            LoadBalancerFrontendIPConfigurations :=
              expandArmPrivateLinkServiceFrontendIPConfiguration
                loadBalancerFrontendIpConfigurations
            NetworkInterfaces := none
            ProvisioningState := ""
            Alias := none }
        Tags := h.tagsExpand t }

/-- The import check of `resourceArmPrivateLinkServiceCreateUpdate` (the block
under `features.ShouldResourcesBeImported() && d.IsNewResource()`): `some ret`
when the handler returns from inside the block. -/
def importCheck (h : Helpers) (c : CreateUpdateCalls) (name resourceGroup : String) (st : St) :
    St × Option Ret :=
  if h.ShouldResourcesBeImported && st.d.isNewResource then
    let st := st.call (Event.get resourceGroup name)
    let existing := c.existing.1
    let err := c.existing.2
    if err ≠ none ∧ ¬ h.ResponseWasNotFound existing.Response = true then
      (st, some (Ret.error ("Error checking for presence of existing Private Link Service " ++
        h.quote name ++ " (Resource Group " ++ h.quote resourceGroup ++ "): " ++ errText err)))
    else
      match existing.ID with
      | some id =>
        if id ≠ "" then
          (st, some (Ret.error (h.ImportAsExistsError "azurerm_private_link_service" id)))
        else (st, none)
      | none => (st, none)
  else (st, none)

/-- Go `resourceArmPrivateLinkServiceCreateUpdate` after the import check. The
closing `return resourceArmPrivateLinkServiceRead(d, meta)` is recorded as the
event `read`, followed by the calls and writes that Read makes. -/
def createUpdateFrom (h : Helpers) (c : CreateUpdateCalls) (name resourceGroup : String)
    (st : St) : Outcome :=
  match createUpdateParameters h st.d with
  | none => st.done Ret.panic
  | some parameters =>
    let st := st.call (Event.createOrUpdate resourceGroup name parameters)
    match c.createOrUpdate with
    | some err =>
      st.done (Ret.error ("Error creating Private Link Service " ++ h.quote name ++
        " (Resource Group " ++ h.quote resourceGroup ++ "): " ++ err))
    | none =>
      let st := st.call Event.waitForCompletion
      match c.waitForCompletion with
      | some err =>
        st.done (Ret.error ("Error waiting for creation of Private Link Service " ++
          h.quote name ++ " (Resource Group " ++ h.quote resourceGroup ++ "): " ++ err))
      | none =>
        let st := st.call (Event.get resourceGroup name)
        let resp := c.get.1
        match c.get.2 with
        | some err =>
          st.done (Ret.error ("Error retrieving Private Link Service " ++ h.quote name ++
            " (Resource Group " ++ h.quote resourceGroup ++ "): " ++ err))
        | none =>
          if resp.ID = none ∨ resp.ID = some "" then
            st.done (Ret.error ("API returns a nil/empty id on Private Link Service " ++
              h.quote name ++ " (Resource Group " ++ h.quote resourceGroup ++ "): " ++
              errText none))
          else
            let st := st.call Event.waitForState
            match c.waitForState with
            | some err =>
              st.done (Ret.error ("Error waiting for Private Link Service " ++ h.quote name ++
                " (Resource Group " ++ h.quote resourceGroup ++ ") to complete: " ++ err))
            | none =>
              let st := st.SetId (resp.ID.getD "")
              let st := st.call Event.read
              let r := resourceArmPrivateLinkServiceRead h c.read st.d
              { d := r.d, ret := r.ret, trace := st.trace ++ r.trace }

/-- Go `resourceArmPrivateLinkServiceCreateUpdate(d, meta)`. -/
def resourceArmPrivateLinkServiceCreateUpdate (h : Helpers) (c : CreateUpdateCalls)
    (d : ResourceData) : Outcome :=
  let name := d.GetString "name"
  let resourceGroup := d.GetString "resource_group_name"
  match importCheck h c name resourceGroup { d := d, trace := [] } with
  | (st, some ret) => st.done ret
  | (st, none) => createUpdateFrom h c name resourceGroup st

/-! ## azurerm_private_link_service: Delete -/

/-- What the calls made by `resourceArmPrivateLinkServiceDelete` return: for
each of the two steps, the response `future.Response()` holds once the step
has returned, and the error of the step. -/
structure DeleteCalls where
  /-- `client.Delete` -/
  delete : HttpResponse × Option String
  /-- `future.WaitForCompletionRef` -/
  waitForCompletion : HttpResponse × Option String

/-- Go `resourceArmPrivateLinkServiceDelete(d, meta)`. -/
def resourceArmPrivateLinkServiceDelete (h : Helpers) (c : DeleteCalls) (d : ResourceData) :
    Outcome :=
  let st : St := { d := d, trace := [] }
  match h.ParseAzureResourceID d.id with
  | Except.error err => st.done (Ret.error err)
  | Except.ok id =>
    let resourceGroup := id.ResourceGroup
    let name := id.path "privateLinkServices"
    let st := st.call (Event.delete resourceGroup name)
    match c.delete.2 with
    | some err =>
      if h.WasNotFound c.delete.1 then
        st.done Ret.nil
      else
        st.done (Ret.error ("Error deleting Private Link Service " ++ h.quote name ++
          " (Resource Group " ++ h.quote resourceGroup ++ "): " ++ err))
    | none =>
      let st := st.call Event.waitForCompletion
      match c.waitForCompletion.2 with
      | some err =>
        if ¬ h.WasNotFound c.waitForCompletion.1 = true then
          st.done (Ret.error ("Error waiting for deleting Private Link Service " ++
            h.quote name ++ " (Resource Group " ++ h.quote resourceGroup ++ "): " ++ err))
        else
          st.done Ret.nil
      | none => st.done Ret.nil

/-! ## azurerm_private_link_endpoint_connection (data source) -/

/-- Go `network.PrivateLinkServiceConnectionState`, the fields read. -/
structure PrivateLinkServiceConnectionState where
  Status : Option String
  Description : Option String
  deriving DecidableEq, Repr

/-- Go `network.PrivateLinkServiceConnectionProperties`, the field read. -/
structure PrivateLinkServiceConnectionProperties where
  PrivateLinkServiceConnectionState : Option PrivateLinkServiceConnectionState
  deriving DecidableEq, Repr

/-- Go `network.PrivateLinkServiceConnection`. -/
structure PrivateLinkServiceConnection where
  Properties : Option PrivateLinkServiceConnectionProperties
  Name : Option String
  deriving DecidableEq, Repr

/-- Go `network.PrivateEndpointProperties`, the fields read. -/
structure PrivateEndpointProperties where
  NetworkInterfaces : Option (List Interface)
  PrivateLinkServiceConnections : Option (List PrivateLinkServiceConnection)
  ManualPrivateLinkServiceConnections : Option (List PrivateLinkServiceConnection)
  deriving DecidableEq, Repr

/-- Go `network.PrivateEndpoint`. -/
structure PrivateEndpoint where
  Response : HttpResponse
  Properties : Option PrivateEndpointProperties
  ID : Option String
  Name : Option String
  Location : Option String
  deriving DecidableEq, Repr

/-- The body of both loops of
`dataSourceFlattenArmPrivateLinkEndpointServiceConnection`. -/
def flattenServiceConnectionItem (item : PrivateLinkServiceConnection)
    (privateIpAddress : String) : TfMap :=
  let result : TfMap := []
  let result := result.put "private_ip_address" (Value.str privateIpAddress)
  let result := match item.Name with
    | some v => result.put "name" (Value.str v)
    | none => result
  match item.Properties with
  | some props =>
    match props.PrivateLinkServiceConnectionState with
    | some v =>
      let result := match v.Status with
        | some s => result.put "status" (Value.str s)
        | none => result
      match v.Description with
      | some d => result.put "request_response" (Value.str d)
      | none => result
    | none => result
  | none => result

/-- A loop of `dataSourceFlattenArmPrivateLinkEndpointServiceConnection`. -/
def flattenServiceConnectionLoop (privateIpAddress : String) :
    List PrivateLinkServiceConnection → List TfMap → List TfMap
  | [], results => results
  | item :: rest, results =>
    flattenServiceConnectionLoop privateIpAddress rest
      (results ++ [flattenServiceConnectionItem item privateIpAddress])

/-- Go `dataSourceFlattenArmPrivateLinkEndpointServiceConnection`. -/
def dataSourceFlattenArmPrivateLinkEndpointServiceConnection
    (serviceConnections manualServiceConnections : Option (List PrivateLinkServiceConnection))
    (privateIpAddress : String) : List TfMap :=
  let results : List TfMap := []
  if serviceConnections = none ∧ manualServiceConnections = none then
    results
  else
    let results := match serviceConnections with
      | some xs => flattenServiceConnectionLoop privateIpAddress xs results
      | none => results
    match manualServiceConnections with
    | some xs => flattenServiceConnectionLoop privateIpAddress xs results
    | none => results

/-- The loop of `getPrivateIpAddress` over the IP configurations, `i` being
the index of the head of the list: it stops (`break`) at the first
configuration whose properties are not nil. -/
def getPrivateIpAddressLoop :
    List InterfaceIPConfiguration → Nat → String → String
  | [], _, privateIpAddress => privateIpAddress
  | config :: rest, i, privateIpAddress =>
    match config.Properties with
    | some propFmt =>
      match propFmt.PrivateIPAddress with
      | some a => if a ≠ "" ∧ i = 0 then a else privateIpAddress
      | none => privateIpAddress
    | none => getPrivateIpAddressLoop rest (i + 1) privateIpAddress

/-- Go `getPrivateIpAddress(networkInterfaceId, meta)`; `get` is what the
interfaces client's `Get` returns. The string is the result, the state records
the call. -/
def getPrivateIpAddress (h : Helpers) (get : Interface × Option String)
    (networkInterfaceId : String) (st : St) : St × String :=
  let privateIpAddress := ""
  match h.ParseAzureResourceID networkInterfaceId with
  | Except.error _ => (st, privateIpAddress)
  | Except.ok id =>
    let name := id.path "networkInterfaces"
    let st := st.call (Event.interfaceGet id.ResourceGroup name)
    let resp := get.1
    match get.2 with
    | some _ => (st, privateIpAddress)
    | none =>
      match resp.Properties with
      | some props =>
        match props.IPConfigurations with
        | some configs => (st, getPrivateIpAddressLoop configs 0 privateIpAddress)
        | none => (st, privateIpAddress)
      | none => (st, privateIpAddress)

/-- What the calls made by `dataSourceArmPrivateLinkEndpointConnectionRead`
return. -/
structure EndpointReadCalls where
  /-- The private endpoint client's `Get` -/
  get : PrivateEndpoint × Option String
  /-- The interfaces client's `Get` made by `getPrivateIpAddress` -/
  interfaceGet : Interface × Option String

/-- The block of `dataSourceArmPrivateLinkEndpointConnectionRead` that looks
the private IP address up (`privateIpAddress := ""` and the `if nics := ...`
after it). -/
def endpointPrivateIpAddress (h : Helpers) (get : Interface × Option String)
    (props : PrivateEndpointProperties) (st : St) : St × String :=
  let privateIpAddress := ""
  match props.NetworkInterfaces with
  | some (nic :: _) =>
    match nic.ID with
    | some nicId =>
      if nicId ≠ "" then getPrivateIpAddress h get nicId st
      else (st, privateIpAddress)
    | none => (st, privateIpAddress)
  | _ => (st, privateIpAddress)

/-- The end of `dataSourceArmPrivateLinkEndpointConnectionRead` for non-nil
properties: the body of `if props := resp.PrivateEndpointProperties; props !=
nil`, and the closing `return nil`. -/
def endpointReadProperties (h : Helpers) (get : Interface × Option String)
    (props : PrivateEndpointProperties) (st : St) : Outcome :=
  let r := endpointPrivateIpAddress h get props st
  match St.Set h r.1 "private_service_connection"
      (AttrValue.mapList (dataSourceFlattenArmPrivateLinkEndpointServiceConnection
        props.PrivateLinkServiceConnections props.ManualPrivateLinkServiceConnections
        r.2)) with
  | (st, some err) =>
    st.done (Ret.error ("Error setting `private_service_connection`: " ++ err))
  | (st, none) => st.done Ret.nil

/-- The writes of `dataSourceArmPrivateLinkEndpointConnectionRead` between the
check of the ID and the properties: the ID, `name`, `resource_group_name` and,
when the response has one, `location`. -/
def endpointReadHeader (h : Helpers) (resp : PrivateEndpoint) (resourceGroup : String)
    (st : St) : St :=
  let st := st.SetId (resp.ID.getD "")
  let st := (St.Set h st "name" (AttrValue.strPtr resp.Name)).1
  let st := (St.Set h st "resource_group_name" (AttrValue.str resourceGroup)).1
  match resp.Location with
  | some location => (St.Set h st "location" (AttrValue.str (h.NormalizeLocation location))).1
  | none => st

/-- Go `dataSourceArmPrivateLinkEndpointConnectionRead(d, meta)`. -/
def dataSourceArmPrivateLinkEndpointConnectionRead (h : Helpers) (c : EndpointReadCalls)
    (d : ResourceData) : Outcome :=
  let st : St := { d := d, trace := [] }
  let name := d.GetString "name"
  let resourceGroup := d.GetString "resource_group_name"
  let st := st.call (Event.endpointGet resourceGroup name)
  let resp := c.get.1
  match c.get.2 with
  | some err =>
    if h.ResponseWasNotFound resp.Response then
      (st.SetId "").done Ret.nil
    else
      st.done (Ret.error ("Error reading Private Link Endpoint " ++ h.quote name ++
        " (Resource Group " ++ h.quote resourceGroup ++ "): " ++ err))
  | none =>
    if resp.ID = none ∨ resp.ID = some "" then
      st.done (Ret.error ("API returns a nil/empty id on Private Link Endpoint " ++
        h.quote name ++ " (Resource Group " ++ h.quote resourceGroup ++ "): " ++ errText none))
    else
      let st := endpointReadHeader h resp resourceGroup st
      match resp.Properties with
      | some props => endpointReadProperties h c.interfaceGet props st
      | none => st.done Ret.nil

/-! ## azurerm_advisor_recommendations (data source) -/

/-- Go `advisor.ShortDescription`, the field read. -/
structure ShortDescription where
  Problem : Option String
  deriving DecidableEq, Repr

/-- Go `date.Time`, by what this code asks of it: `IsZero()` and
`Format(time.RFC3339)`. -/
structure DateTime where
  IsZero : Bool
  rfc3339 : String
  deriving DecidableEq, Repr

/-- Go `advisor.ResourceRecommendationBase`, the fields read; a suppression
id is held as the text `uuid.UUID.String()` gives. -/
structure ResourceRecommendationBase where
  Category : String
  Impact : String
  ImpactedField : Option String
  ImpactedValue : Option String
  LastUpdated : Option DateTime
  RecommendationTypeID : Option String
  ShortDescription : Option ShortDescription
  SuppressionIds : Option (List String)
  Name : Option String
  deriving DecidableEq, Repr

/-- Go `advisor.ResourceRecommendationBaseListResultIterator`, by what this
code asks of it. `done` is an iterator whose `NotDone()` is false; `item v err
next` is one whose `NotDone()` is true, whose `Value()` is `v`, and on which
`NextWithContext` returns `err` and leaves the iterator `next`. -/
inductive RecommendationIterator where
  | done
  | item (value : ResourceRecommendationBase) (err : Option String)
      (next : RecommendationIterator)
  deriving DecidableEq, Repr

/-- Go `RecommendationIterator.NotDone()`. -/
def RecommendationIterator.NotDone : RecommendationIterator → Bool
  | RecommendationIterator.done => false
  | RecommendationIterator.item _ _ _ => true

/-- Go `flattenSuppressionSlice`. -/
def flattenSuppressionSlice (input : Option (List String)) : List String :=
  match input with
  | some xs => xs.foldl (fun result item => result ++ [item]) []
  | none => []

/-- The body of the loop of `flattenAzureRmAdvisorRecommendations`; `none` is
the panic of `*v.Name` on a nil `Name`. -/
def flattenRecommendationItem (v : ResourceRecommendationBase) : Option TfMap :=
  let category := if v.Category ≠ "" then v.Category else ""
  let description :=
    match v.ShortDescription with
    | some sd =>
      match sd.Problem with
      | some p => p
      | none => ""
    | none => ""
  let impact := if v.Impact ≠ "" then v.Impact else ""
  let recTypeId := v.RecommendationTypeID.getD ""
  let resourceName := v.ImpactedValue.getD ""
  let resourceType := v.ImpactedField.getD ""
  let suppressionIds : List String :=
    if v.SuppressionIds ≠ none then flattenSuppressionSlice v.SuppressionIds else []
  let updatedTime :=
    match v.LastUpdated with
    | some t => if ¬ t.IsZero = true then t.rfc3339 else ""
    | none => ""
  match v.Name with
  | none => none
  | some name =>
    some
      [("category", Value.str category),
       ("description", Value.str description),
       ("impact", Value.str impact),
       ("recommendation_name", Value.str name),
       ("recommendation_type_id", Value.str recTypeId),
       ("resource_name", Value.str resourceName),
       ("resource_type", Value.str resourceType),
       ("suppression_names", Value.list suppressionIds),
       ("updated_time", Value.str updatedTime)]

/-- The loop of `flattenAzureRmAdvisorRecommendations`. -/
def flattenRecommendationsLoop :
    List ResourceRecommendationBase → List TfMap → Option (List TfMap)
  | [], result => some result
  | v :: rest, result =>
    match flattenRecommendationItem v with
    | none => none
    | some m => flattenRecommendationsLoop rest (result ++ [m])

/-- Go `flattenAzureRmAdvisorRecommendations`; `none` is a panic. -/
def flattenAzureRmAdvisorRecommendations (recommends : List ResourceRecommendationBase) :
    Option (List TfMap) :=
  let result : List TfMap := []
  if recommends.length = 0 then
    some result
  else
    flattenRecommendationsLoop recommends result

/-- Go `expandAzureRmAdvisorRecommendationsMapString`. -/
def expandAzureRmAdvisorRecommendationsMapString (t : String) (input : List String) : String :=
  if input.length = 0 then
    ""
  else
    let result := input.foldl (fun result v => result ++ [t ++ " eq '" ++ v ++ "'"]) []
    "(" ++ String.intercalate " or " result ++ ")"

/-- What the calls made by `dataSourceArmAdvisorRecommendationsRead` return. -/
structure AdvisorReadCalls where
  /-- `client.ListComplete`: the iterator and the error -/
  listComplete : RecommendationIterator × Option String
  /-- `time.Now().UTC().String()` -/
  now : String

/-- The `for` loop of `dataSourceArmAdvisorRecommendationsRead`, from its
condition on: `it` is the iterator, `err` the error of the call made last
(`ListComplete`, then `NextWithContext`), `recommends` the slice built so far.
The result is the slice, or `some ret` when the handler returns from inside
the loop. -/
def advisorLoop : RecommendationIterator → Option String → List ResourceRecommendationBase →
    St → St × List ResourceRecommendationBase × Option Ret
  | RecommendationIterator.done, _, recommends, st => (st, recommends, none)
  | RecommendationIterator.item value nextErr next, err, recommends, st =>
    match err with
    | some e => (st, recommends, some (Ret.error ("loading Advisor Recommendation List: " ++ e)))
    | none =>
      if value.Name = none ∨ value.Name = some "" then
        (st, recommends, some (Ret.error "advisor Recommendation Name was nil or empty"))
      else
        advisorLoop next nextErr (recommends ++ [value]) (st.call Event.nextWithContext)

/-- Go `dataSourceArmAdvisorRecommendationsRead(d, meta)`. -/
def dataSourceArmAdvisorRecommendationsRead (h : Helpers) (c : AdvisorReadCalls)
    (d : ResourceData) : Outcome :=
  let st : St := { d := d, trace := [] }
  let filterList : List String := []
  let categories :=
    expandAzureRmAdvisorRecommendationsMapString "Category" (d.GetSet "filter_by_category").List
  let filterList := if categories ≠ "" then filterList ++ [categories] else filterList
  let resGroups :=
    expandAzureRmAdvisorRecommendationsMapString "ResourceGroup"
      (d.GetSet "filter_by_resource_groups").List
  let filterList := if resGroups ≠ "" then filterList ++ [resGroups] else filterList
  let st := st.call (Event.listComplete (String.intercalate " and " filterList))
  match advisorLoop c.listComplete.1 c.listComplete.2 [] st with
  | (st, _, some ret) => st.done ret
  | (st, recommends, none) =>
    match flattenAzureRmAdvisorRecommendations recommends with
    | none => st.done Ret.panic
    | some flat =>
      match St.Set h st "recommendations" (AttrValue.mapList flat) with
      | (st, some err) => st.done (Ret.error ("setting `recommendations`: " ++ err))
      | (st, none) => (st.SetId ("avdisor/recommendations/" ++ c.now)).done Ret.nil

/-! ## The refresh function of the poll in Create / Update -/

/-- The `Pending` states of the poll set up by
`resourceArmPrivateLinkServiceCreateUpdate` (`stateConf.Pending`). -/
def privateLinkServicePendingStates : List String := ["Pending", "Updating", "Creating"]

/-- The `Target` states of that poll (`stateConf.Target`). -/
def privateLinkServiceTargetStates : List String := ["Succeeded"]

/-- The function returned by Go `privateLinkServiceWaitForReadyRefreshFunc(ctx,
client, resourceGroupName, name)`, run once; `get` is what `client.Get`
returns. The result is the triple the function returns: the result (`none` is
the nil interface), the state, the error. -/
def privateLinkServiceWaitForReadyRefreshFunc (h : Helpers) (resourceGroupName name : String)
    (get : PrivateLinkService × Option String) :
    Option PrivateLinkService × String × Option String :=
  let res := get.1
  match get.2 with
  | some err =>
    (none, "Error", some ("Error issuing read request in " ++
      "privateLinkServiceWaitForReadyRefreshFunc " ++ h.quote name ++ " (Resource Group " ++
      h.quote resourceGroupName ++ "): " ++ err))
  | none =>
    match res.Properties with
    | some props =>
      if props.ProvisioningState ≠ "" then (some res, props.ProvisioningState, none)
      else (some res, "Pending", none)
    | none => (some res, "Pending", none)

/-! ## The schema of `nat_ip_configuration.private_ip_address_version` -/

/-- Modelled from the spec: the vendor SDK's constant `network.IPv4` is not
among the sources; it is the name of the one address version the API supports. -/
def networkIPv4 : String := "IPv4"

/-- Modelled from the spec: the plugin SDK's `validation.StringInSlice(valid,
ignoreCase)` is not among the sources. The function it returns, applied to the
value `i` of the attribute `k`, gives warnings and errors: no error when `i` is
a string equal to an element of `valid` (or equal to one once both are put in
lower case, when `ignoreCase` is set), one error otherwise. -/
def StringInSlice (valid : List String) (ignoreCase : Bool) (i : Value) (k : String) :
    List String × List String :=
  match i with
  | Value.str v =>
    if valid.any (fun str => v == str || (ignoreCase && v.toLower == str.toLower)) then
      ([], [])
    else
      ([], ["expected " ++ k ++ " to be one of " ++ toString valid ++ ", got " ++ v])
  | _ => ([], ["expected type of " ++ k ++ " to be string"])

/-- The plugin SDK's `schema.Schema`, the fields set by this code for a string
attribute. -/
structure Schema where
  Required : Bool := false
  Optional : Bool := false
  ForceNew : Bool := false
  Computed : Bool := false
  ValidateFunc : Option (Value → String → List String × List String) := none
  Default : Option Value := none

/-- The schema of `nat_ip_configuration.private_ip_address_version` in
`resourceArmPrivateLinkService`. -/
def privateIpAddressVersionSchema : Schema :=
  { Optional := true
    ValidateFunc := some (StringInSlice [networkIPv4] false)
    Default := some (Value.str networkIPv4) }

/-! ## What the claims on `getPrivateIpAddress` and on the advisor filter say -/

/-- The private IP address of the first IP configuration of a network
interface: the address of the configuration at index 0 when that configuration
has properties with a non-nil, non-empty address, the empty string in every
other case. -/
def firstConfigurationPrivateIpAddress (resp : Interface) : String :=
  match resp.Properties with
  | some props =>
    match props.IPConfigurations with
    | some (config :: _) =>
      match config.Properties with
      | some propFmt =>
        match propFmt.PrivateIPAddress with
        | some a => if a ≠ "" then a else ""
        | none => ""
      | none => ""
    | _ => ""
  | none => ""

/-- A recommendation has a non-nil, non-empty name. -/
def HasName (v : ResourceRecommendationBase) : Prop :=
  ∃ n, v.Name = some n ∧ n ≠ ""

/-- One clause of a filter group: `t eq 'v'`. -/
def advisorClause (t v : String) : String := t ++ " eq '" ++ v ++ "'"

/-- The clauses for the values `xs`, in order, separated by ` or `. -/
def joinClauses (t : String) : List String → String
  | [] => ""
  | [v] => advisorClause t v
  | v :: w :: rest => advisorClause t v ++ " or " ++ joinClauses t (w :: rest)

/-- The filter the spec describes for the two filter lists. -/
def advisorFilterSpec (categories resourceGroups : List String) : String :=
  match categories, resourceGroups with
  | [], [] => ""
  | _ :: _, [] => "(" ++ joinClauses "Category" categories ++ ")"
  | [], _ :: _ => "(" ++ joinClauses "ResourceGroup" resourceGroups ++ ")"
  | _ :: _, _ :: _ =>
    "(" ++ joinClauses "Category" categories ++ ")" ++ " and " ++
      "(" ++ joinClauses "ResourceGroup" resourceGroups ++ ")"

/-! ## Parsing of resource IDs (`ParsePointToSiteVPNGatewayID`) -/

/-- Go `strings.Split(s, "/")`, on the characters of `s`. -/
def splitSlash : List Char → List (List Char)
  | [] => [[]]
  | c :: cs =>
    if c = '/' then [] :: splitSlash cs
    else (c :: (splitSlash cs).headD []) :: (splitSlash cs).tail

/-- Go `strings.TrimPrefix(s, "/")`, on the characters of `s`. -/
def trimPrefixSlash : List Char → List Char
  | [] => []
  | c :: cs => if c = '/' then cs else c :: cs

/-- Go `strings.TrimSuffix(s, "/")`, on the characters of `s`. -/
def trimSuffixSlash (cs : List Char) : List Char :=
  if cs.getLast? = some '/' then cs.dropLast else cs

/-- The segments of an ID: the strings between its `/`. -/
def idSegments (id : String) : List String :=
  (splitSlash id.data).map String.mk

/-- Go `m[key] = value` on a `map[string]string`. -/
def putString : List (String × String) → String → String → List (String × String)
  | [], k, v => [(k, v)]
  | (k', v') :: m, k, v => if k' = k then (k, v) :: m else (k', v') :: putString m k v

/-- Go `delete(m, key)` on a `map[string]string`. -/
def deleteString : List (String × String) → String → List (String × String)
  | [], _ => []
  | (k', v') :: m, key => if k' = key then deleteString m key else (k', v') :: deleteString m key

/-- Modelled from the spec: the loop of `azure.ParseAzureResourceID` over the
key/value pairs of the path, which is not among the sources. A pair with an
empty key or value is an error; the first `subscriptions` pair gives the
subscription, every other pair goes into the map. -/
def parseComponents :
    List String → String → List (String × String) →
      Except String (String × List (String × String))
  | [], subscriptionID, componentMap => Except.ok (subscriptionID, componentMap)
  | [_], _, _ => Except.error "index out of range"
  | key :: value :: rest, subscriptionID, componentMap =>
    if key = "" ∨ value = "" then
      Except.error ("Key/Value cannot be empty strings. Key: '" ++ key ++ "', Value: '" ++
        value ++ "'")
    else if key = "subscriptions" ∧ subscriptionID = "" then
      parseComponents rest value componentMap
    else
      parseComponents rest subscriptionID (putString componentMap key value)

/-- Modelled from the spec: `azure.ParseAzureResourceID` is not among the
sources; the spec calls ID parsing a trivial string and map utility. The ID is
taken as a plain path that starts with `/` (no URL decoding): it is split at
`/` into key/value pairs, the subscription is kept apart, the resource group is
taken out of the pairs, and the other pairs are the `Path`. -/
def ParseAzureResourceID (id : String) : Except String ResourceID :=
  if id = "" then
    Except.error "Cannot parse Azure ID: empty url"
  else if id.data.head? ≠ some '/' then
    Except.error "Cannot parse Azure ID: invalid URI for request"
  else
    let path := trimSuffixSlash (trimPrefixSlash id.data)
    let components := (splitSlash path).map String.mk
    if components.length % 2 ≠ 0 then
      Except.error ("The number of path segments is not divisible by 2 in " ++ String.mk path)
    else
      match parseComponents components "" [] with
      | Except.error err => Except.error err
      | Except.ok (subscriptionID, componentMap) =>
        if subscriptionID = "" then
          Except.error ("No subscription ID found in: " ++ String.mk path)
        else
          match List.lookup "resourceGroups" componentMap with
          | some resourceGroup =>
            Except.ok
              { ResourceGroup := resourceGroup
                Path := deleteString (deleteString componentMap "resourceGroups") "providers" }
          | none =>
            match List.lookup "resourcegroups" componentMap with
            | some resourceGroup =>
              Except.ok
                { ResourceGroup := resourceGroup
                  Path := deleteString (deleteString componentMap "resourcegroups") "providers" }
            | none => Except.error ("No resource group name found in: " ++ String.mk path)

/-- Go `PointToSiteVPNGatewayResourceID`, as the test of the parser builds it. -/
structure PointToSiteVPNGatewayResourceID where
  Base : ResourceID
  Name : String
  deriving DecidableEq, Repr

/-- Modelled from the spec: `ParsePointToSiteVPNGatewayID` is not among the
sources, only its test is. The ID is parsed as an Azure resource ID; the name is
the value of its `p2sVpnGateways` segment, and an ID without that value is an
error. -/
def ParsePointToSiteVPNGatewayID (input : String) :
    Except String PointToSiteVPNGatewayResourceID :=
  match ParseAzureResourceID input with
  | Except.error err =>
    Except.error ("[ERROR] Unable to parse Point-to-Site VPN Gateway ID " ++ input ++ ": " ++ err)
  | Except.ok id =>
    let gateway : PointToSiteVPNGatewayResourceID :=
      { Base := id, Name := id.path "p2sVpnGateways" }
    if gateway.Name = "" then
      Except.error "ID was missing the `p2sVpnGateways` element"
    else
      Except.ok gateway

/-! ## Validation of the tags of a metric alert rule -/

/-- Go `strings.EqualFold(s, t)`, with case folding on the ASCII letters. -/
def equalFold (s t : String) : Bool :=
  s.data.map Char.toLower == t.data.map Char.toLower

/-- The keys of a Go map, each once: what `for k := range m` runs over, in
some order. -/
def TfMap.keys (m : TfMap) : List String :=
  (m.map Prod.fst).dedup

/-- Modelled from the spec: the loop of `validateMonitorMetricAlertRuleTags`
over the keys of the tag map, which is not among the sources: one error for
every key that equals `$type` without regard to letter case. -/
def reservedTagNameLoop : List String → List String → List String
  | [], errors => errors
  | k :: rest, errors =>
    if equalFold k "$type" then
      reservedTagNameLoop rest (errors ++ ["the " ++ k ++ " is not allowed as tag name"])
    else
      reservedTagNameLoop rest errors

/-- Modelled from the spec: `validateMonitorMetricAlertRuleTags(v, f)` is not
among the sources, only its test is. It returns the warnings and errors of the
validation every tag map goes through (`tags.Validate`, here `tagsValidate`),
and one more error for every key that equals the reserved name `$type` without
regard to letter case. -/
def validateMonitorMetricAlertRuleTags
    (tagsValidate : TfMap → String → List String × List String) (v : TfMap) (f : String) :
    List String × List String :=
  let r := tagsValidate v f
  (r.1, reservedTagNameLoop v.keys r.2)

/-! ## What the claims on the flatten and expand functions say -/

/-- The connection state of a connection, nil when the connection has no
properties. -/
def connectionState (item : PrivateLinkServiceConnection) :
    Option PrivateLinkServiceConnectionState :=
  match item.Properties with
  | some props => props.PrivateLinkServiceConnectionState
  | none => none

/-- What an entry of `private_service_connection` holds under the key `k`, as
the claim on the flattening says it: the given address, and the name, the
status and the description of the connection when they are not nil. -/
def connectionEntrySpec (item : PrivateLinkServiceConnection) (privateIpAddress : String)
    (k : String) : Option Value :=
  if k = "private_ip_address" then some (Value.str privateIpAddress)
  else if k = "name" then item.Name.map Value.str
  else if k = "status" then
    match connectionState item with
    | some state => state.Status.map Value.str
    | none => none
  else if k = "request_response" then
    match connectionState item with
    | some state => state.Description.map Value.str
    | none => none
  else none

/-- The keys of an entry of `recommendations`, as the schema declares them. -/
def recommendationKeys : List String :=
  ["category", "description", "impact", "recommendation_name", "recommendation_type_id",
   "resource_name", "resource_type", "suppression_names", "updated_time"]

/-- What the claim on the flattening of the recommendations says of the map
`m` made for the recommendation `v`: exactly the nine keys, the name of the
recommendation, and every other field from its source, the empty string (no
entry, for the suppression ids) standing for a nil or empty source. -/
def IsRecommendationEntry (v : ResourceRecommendationBase) (m : TfMap) : Prop :=
  m.map Prod.fst = recommendationKeys ∧
  (∀ k, (m.at k).isSome = true ↔ k ∈ recommendationKeys) ∧
  m.at "recommendation_name" = v.Name.map Value.str ∧
  m.at "category" = some (Value.str v.Category) ∧
  m.at "description" =
    some (Value.str ((v.ShortDescription.bind (fun sd => sd.Problem)).getD "")) ∧
  m.at "impact" = some (Value.str v.Impact) ∧
  m.at "recommendation_type_id" = some (Value.str (v.RecommendationTypeID.getD "")) ∧
  m.at "resource_name" = some (Value.str (v.ImpactedValue.getD "")) ∧
  m.at "resource_type" = some (Value.str (v.ImpactedField.getD "")) ∧
  m.at "suppression_names" = some (Value.list (v.SuppressionIds.getD [])) ∧
  m.at "updated_time" = some (Value.str
    (match v.LastUpdated with
     | some t => if t.IsZero = true then "" else t.rfc3339
     | none => ""))

/-- A map holds the five fields of a `nat_ip_configuration` element at their
schema types (it may hold other keys). -/
def HasNatIpFields (m : TfMap) : Prop :=
  (∃ s, m.at "name" = some (Value.str s)) ∧
  (∃ s, m.at "private_ip_address" = some (Value.str s)) ∧
  (∃ s, m.at "private_ip_address_version" = some (Value.str s)) ∧
  (∃ s, m.at "subnet_id" = some (Value.str s)) ∧
  (∃ b, m.at "primary" = some (Value.bool b))

/-- What the claim on the expansion says of the element `r` made for the map
`m`: its fields are not nil and hold the values of the map, and its allocation
method is `Static` when the private IP address of the map is not empty and
`Dynamic` when it is. -/
def IsExpandedNatIp (m : TfMap) (r : PrivateLinkServiceIPConfiguration) : Prop :=
  ∃ name privateIpAddress version subnetId primary props,
    m.at "name" = some (Value.str name) ∧
    m.at "private_ip_address" = some (Value.str privateIpAddress) ∧
    m.at "private_ip_address_version" = some (Value.str version) ∧
    m.at "subnet_id" = some (Value.str subnetId) ∧
    m.at "primary" = some (Value.bool primary) ∧
    r.Name = some name ∧
    r.Properties = some props ∧
    props.PrivateIPAddress = some privateIpAddress ∧
    props.PrivateIPAddressVersion = version ∧
    props.Subnet = some { ID := some subnetId } ∧
    props.Primary = some primary ∧
    (props.PrivateIPAllocationMethod = "Static" ↔ privateIpAddress ≠ "") ∧
    (privateIpAddress = "" → props.PrivateIPAllocationMethod = "Dynamic")

/-! ## The acceptance tests of azurerm_bot_web_app -/

/-- An operand of `fmt.Sprintf`. -/
inductive FmtArg where
  | int (n : Int)
  | str (s : String)
  deriving DecidableEq, Repr

/-- Go `fmt.Sprintf` on the characters of the format, for the verbs `%d` (an
integer, in decimal) and `%s` (a string); every other character is copied. -/
def sprintfChars : List Char → List FmtArg → List Char
  | [], _ => []
  | '%' :: 'd' :: rest, FmtArg.int n :: args => (toString n).data ++ sprintfChars rest args
  | '%' :: 's' :: rest, FmtArg.str s :: args => s.data ++ sprintfChars rest args
  | c :: rest, args => c :: sprintfChars rest args

/-- Go `fmt.Sprintf(format, args...)`. -/
def Sprintf (format : String) (args : List FmtArg) : String :=
  String.mk (sprintfChars format.data args)

/-- Go `testAccAzureRMBotWebApp_basicConfig(rInt, location)`; a brace of the
template is written by its code. -/
def testAccAzureRMBotWebApp_basicConfig (rInt : Int) (location : String) : String :=
  Sprintf
    ("\n" ++
    "data \"azurerm_client_config\" \"current\" \x7b\x7d\n" ++
    "\n" ++
    "resource \"azurerm_resource_group\" \"test\" \x7b\n" ++
    "  name     = \"acctestRG-%d\"\n" ++
    "  location = \"%s\"\n" ++
    "\x7d\n" ++
    "\n" ++
    "resource \"azurerm_bot_web_app\" \"test\" \x7b\n" ++
    "  name                = \"acctestdf%d\"\n" ++
    "  location            = \"global\"\n" ++
    "  resource_group_name = \"$\x7bazurerm_resource_group.test.name\x7d\"\n" ++
    "  sku                 = \"F0\"\n" ++
    "  microsoft_app_id    = \"$\x7bdata.azurerm_client_config.current.service_principal_application_id\x7d\"\n" ++
    "\n" ++
    "  tags = \x7b\n" ++
    "    environment = \"production\"\n" ++
    "  \x7d\n" ++
    "\x7d\n")
    [FmtArg.int rInt, FmtArg.str location, FmtArg.int rInt]

/-- Go `testAccAzureRMBotWebApp_updateConfig(rInt, location)`; a brace of the
template is written by its code. -/
def testAccAzureRMBotWebApp_updateConfig (rInt : Int) (location : String) : String :=
  Sprintf
    ("\n" ++
    "data \"azurerm_client_config\" \"current\" \x7b\x7d\n" ++
    "\n" ++
    "resource \"azurerm_resource_group\" \"test\" \x7b\n" ++
    "  name     = \"acctestRG-%d\"\n" ++
    "  location = \"%s\"\n" ++
    "\x7d\n" ++
    "\n" ++
    "resource \"azurerm_bot_web_app\" \"test\" \x7b\n" ++
    "  name                = \"acctestdf%d\"\n" ++
    "  location            = \"global\"\n" ++
    "  resource_group_name = \"$\x7bazurerm_resource_group.test.name\x7d\"\n" ++
    "  sku                 = \"F0\"\n" ++
    "  microsoft_app_id    = \"$\x7bdata.azurerm_client_config.current.service_principal_application_id\x7d\"\n" ++
    "\n" ++
    "  tags = \x7b\n" ++
    "    environment = \"production\"\n" ++
    "  \x7d\n" ++
    "\x7d\n")
    [FmtArg.int rInt, FmtArg.str location, FmtArg.int rInt]

/-- The plugin SDK's `terraform.InstanceState`, the field read. -/
structure InstanceState where
  Attributes : List (String × String)
  deriving DecidableEq, Repr

/-- The plugin SDK's `terraform.ResourceState`, the fields read; `ResourceType`
is its field `Type`. -/
structure ResourceState where
  ResourceType : String
  Primary : Option InstanceState
  deriving DecidableEq, Repr

/-- Go `botservice.Bot`, by what the check reads: the response, and the text
`%#v` prints for `Properties`. -/
structure Bot where
  Response : HttpResponse
  Properties : String
  deriving DecidableEq, Repr

/-- Go `m[key]` on the attributes of a state: the zero value if missing. -/
def stateAttribute (attrs : List (String × String)) (key : String) : String :=
  (List.lookup key attrs).getD ""

/-- Go `testCheckAzureRMBotWebAppDestroy(s)`, on the resources of the root
module in the order the loop meets them; `get` is what `client.Get` returns for
a resource group and a name. -/
def testCheckAzureRMBotWebAppDestroy (get : String → String → Bot × Option String) :
    List ResourceState → Ret
  | [] => Ret.nil
  | rs :: rest =>
    if rs.ResourceType ≠ "azurerm_bot" then
      testCheckAzureRMBotWebAppDestroy get rest
    else
      match rs.Primary with
      | none => Ret.panic
      | some primary =>
        let name := stateAttribute primary.Attributes "name"
        let resourceGroup := stateAttribute primary.Attributes "resource_group_name"
        let resp := (get resourceGroup name).1
        match (get resourceGroup name).2 with
        | some _ => Ret.nil
        | none =>
          match resp.Response with
          | none => Ret.panic
          | some statusCode =>
            if statusCode ≠ 404 then
              Ret.error ("Bot Web App still exists:\n" ++ resp.Properties)
            else
              testCheckAzureRMBotWebAppDestroy get rest

/-! ## Concrete inputs, for evaluating the handlers -/

/-- One choice of the helpers: a resource ID parses unless it is empty, and a
response is not-found when its status code is 404. -/
def sampleHelpers : Helpers :=
  { ParseAzureResourceID := fun s =>
      if s = "" then Except.error "Cannot parse Azure ID: parse \"\": empty url"
      else Except.ok
        { ResourceGroup := "group1"
          Path := [("privateLinkServices", "service1"), ("networkInterfaces", "nic1")] }
    ResponseWasNotFound := fun r => r == some 404
    WasNotFound := fun r => r == some 404
    NormalizeLocation := fun s => s
    ShouldResourcesBeImported := true
    ImportAsExistsError := fun resourceName id =>
      "A resource with the ID " ++ id ++ " already exists - to be managed via Terraform " ++
      "this resource needs to be imported into the State. Please see the resource " ++
      "documentation for " ++ resourceName ++ " for more information."
    HashString := fun s => (s.length : Int)
    ExpandStringSlice := fun xs => some xs
    FlattenStringSlice := fun p => p.getD []
    tagsExpand := fun _ => []
    tagsFlatten := fun _ => []
    quote := fun s => "\"" ++ s ++ "\""
    SetError := fun _ _ => none }

/-- A `nat_ip_configuration` element as the schema shapes it. -/
def sampleNatIp : TfMap :=
  [("name", Value.str "primary"), ("private_ip_address", Value.str "10.5.1.17"),
   ("private_ip_address_version", Value.str "IPv4"), ("subnet_id", Value.str "subnet1"),
   ("primary", Value.bool true)]

/-- The resource data of a new Private Link Service with one NAT IP
configuration. -/
def sampleData : ResourceData :=
  { id := ""
    isNewResource := true
    attrs :=
      [("name", AttrValue.str "service1"), ("resource_group_name", AttrValue.str "group1"),
       ("location", AttrValue.str "westeurope"),
       ("nat_ip_configuration", AttrValue.mapList [sampleNatIp]),
       ("load_balancer_frontend_ip_configuration_ids", AttrValue.set ["lb1"])] }

/-- The resource data of an existing Private Link Service. -/
def sampleState : ResourceData :=
  { sampleData with id := "/subscriptions/sub1/resourceGroups/group1/providers/Microsoft.Network/privateLinkServices/service1", isNewResource := false }

/-- A response without content, with the status code `code`. -/
def emptyService (code : Nat) : PrivateLinkService :=
  { Response := some code, Properties := none, ID := none, Name := none, Location := none,
    Tags := [] }

/-- A private endpoint response without content, with the status code `code`. -/
def emptyEndpoint (code : Nat) : PrivateEndpoint :=
  { Response := some code, Properties := none, ID := none, Name := none, Location := none }

/-- A network interface response without content, with the status code `code`. -/
def emptyInterface (code : Nat) : Interface :=
  { Response := some code, ID := none, Properties := none }

/-- A Private Link Service as a successful `Get` returns it. -/
def sampleService : PrivateLinkService :=
  { Response := some 200
    Properties := none
    ID := some "/subscriptions/sub1/resourceGroups/group1/providers/Microsoft.Network/privateLinkServices/service1"
    Name := some "service1"
    Location := some "westeurope"
    Tags := [] }

/-- A run of Create in which every call succeeds; the resource does not exist
before. -/
def sampleCalls : CreateUpdateCalls :=
  { existing := (emptyService 404, some "StatusCode=404")
    createOrUpdate := none
    waitForCompletion := none
    get := (sampleService, none)
    waitForState := none
    read := (sampleService, none) }

/-- A run of Create in which the poll for the state `Succeeded` fails. -/
def pollFailedCalls : CreateUpdateCalls :=
  { sampleCalls with waitForState := some "timeout while waiting for state to become Succeeded" }

/-- A run of Create whose existence lookup fails after the ID of the response
was decoded: the response has status 200 and carries the ID. -/
def lookupFailedCalls : CreateUpdateCalls :=
  { sampleCalls with
    existing := (sampleService, some "json: cannot unmarshal number into Go struct field") }

/-- A run of Create whose existence lookup finds the resource. -/
def existingCalls : CreateUpdateCalls :=
  { sampleCalls with existing := (sampleService, none) }

/-- The resource data of the endpoint connection data source. -/
def sampleEndpointData : ResourceData :=
  { id := ""
    isNewResource := false
    attrs := [("name", AttrValue.str "endpoint1"), ("resource_group_name", AttrValue.str "group1")] }

/-- A connection of a private endpoint, approved. -/
def sampleConnection : PrivateLinkServiceConnection :=
  { Name := some "connection1"
    Properties := some
      { PrivateLinkServiceConnectionState := some
          { Status := some "Approved", Description := some "Auto-Approved" } } }

/-- A network interface as a private endpoint refers to it. -/
def sampleInterfaceRef : Interface :=
  { Response := none
    ID := some "/subscriptions/sub1/resourceGroups/group1/providers/Microsoft.Network/networkInterfaces/nic1"
    Properties := none }

/-- A private endpoint with one network interface and one connection. -/
def sampleEndpoint : PrivateEndpoint :=
  { Response := some 200
    ID := some "/subscriptions/sub1/resourceGroups/group1/providers/Microsoft.Network/privateEndpoints/endpoint1"
    Name := some "endpoint1"
    Location := some "westeurope"
    Properties := some
      { NetworkInterfaces := some [sampleInterfaceRef]
        PrivateLinkServiceConnections := some [sampleConnection]
        ManualPrivateLinkServiceConnections := none } }

/-- A read of the endpoint in which the endpoint `Get` succeeds and the
network interface `Get` fails. -/
def interfaceFailedCalls : EndpointReadCalls :=
  { get := (sampleEndpoint, none)
    interfaceGet := (emptyInterface 500, some "StatusCode=500") }

/-- A read of the recommendations whose listing call fails: the iterator it
returns is done. -/
def listFailedCalls : AdvisorReadCalls :=
  { listComplete := (RecommendationIterator.done, some "StatusCode=500")
    now := "2020-03-01 10:00:00 +0000 UTC" }

/-- The resource data of the recommendations data source, no filter set. -/
def sampleAdvisorData : ResourceData :=
  { id := "", isNewResource := false, attrs := [] }

/-- A Delete whose `client.Delete` fails with a not-found response. -/
def notFoundDeleteCalls : DeleteCalls :=
  { delete := (some 404, some "StatusCode=404")
    waitForCompletion := (none, none) }

/-- A read of the endpoint whose `Get` fails with a not-found response. -/
def notFoundEndpointCalls : EndpointReadCalls :=
  { get := (emptyEndpoint 404, some "StatusCode=404")
    interfaceGet := (emptyInterface 200, none) }

/-- The properties of a Private Link Service with every pointer set. -/
def sampleProperties : PrivateLinkServiceProperties :=
  { LoadBalancerFrontendIPConfigurations := some [{ ID := some "lb1" }]
    IPConfigurations := none
    NetworkInterfaces := none
    ProvisioningState := "Succeeded"
    Visibility := some { Subscriptions := some [] }
    AutoApproval := some { Subscriptions := some [] }
    Alias := some "service1.alias" }

/-- A successful `Get` whose response has no location. -/
def noLocationGet : PrivateLinkService × Option String :=
  ({ sampleService with Location := none }, none)

/-- A successful `Get` whose response has properties without `AutoApproval`. -/
def noAutoApprovalGet : PrivateLinkService × Option String :=
  ({ sampleService with Properties := some { sampleProperties with AutoApproval := none } }, none)

/-- A successful `Get` whose response has properties without `Visibility`. -/
def noVisibilityGet : PrivateLinkService × Option String :=
  ({ sampleService with Properties := some { sampleProperties with Visibility := none } }, none)

/-- The general validation of tags, for tag maps it accepts. -/
def acceptTags : TfMap → String → List String × List String :=
  fun _ _ => ([], [])

/-- A network interface whose first IP configuration has a private address. -/
def sampleInterface : Interface :=
  { Response := some 200
    ID := some "/subscriptions/sub1/resourceGroups/group1/providers/Microsoft.Network/networkInterfaces/nic1"
    Properties := some
      { IPConfigurations := some
          [{ Properties := some { PrivateIPAddress := some "10.5.1.4" } },
           { Properties := some { PrivateIPAddress := some "10.5.1.5" } }] } }

/-- A recommendation without a name. -/
def unnamedRecommendation : ResourceRecommendationBase :=
  { Category := "Cost", Impact := "High", ImpactedField := none, ImpactedValue := none,
    LastUpdated := none, RecommendationTypeID := none, ShortDescription := none,
    SuppressionIds := none, Name := none }

/-- A resource of the type of the acceptance tests that remains in the state. -/
def leftoverWebApp : ResourceState :=
  { ResourceType := "azurerm_bot_web_app"
    Primary := some
      { Attributes := [("name", "acctestdf1"), ("resource_group_name", "acctestRG-1")] } }

/-- An API in which every bot still exists: `Get` succeeds with status 200. -/
def botStillExists : String → String → Bot × Option String :=
  fun _ _ => ({ Response := some 200, Properties := "&botservice.BotProperties" }, none)

/-- A recommendation with a name and two suppression ids. -/
def sampleRecommendation : ResourceRecommendationBase :=
  { Category := "Cost", Impact := "High", ImpactedField := some "Microsoft.Compute/virtualMachines",
    ImpactedValue := some "vm1", LastUpdated := none, RecommendationTypeID := none,
    ShortDescription := some { Problem := some "Right-size the virtual machine" },
    SuppressionIds := some ["id1", "id2"], Name := some "recommendation1" }

/-! ## Lemmas on maps, sets and the loops -/

theorem TfMap.at_cons (k k' : String) (v : Value) (m : TfMap) :
    TfMap.at ((k', v) :: m) k = if k = k' then some v else TfMap.at m k := by
  unfold TfMap.at
  by_cases hk : k = k'
  · subst hk; simp [List.lookup]
  · have : (k == k') = false := by simpa using hk
    simp [List.lookup, this, hk]

theorem TfMap.at_nil (k : String) : TfMap.at [] k = none := rfl

/-- On a map of the schema's shape the loop body of the expansion does not
panic, and flattening its result gives the key/value pairs of the map back. -/
theorem expandIPConfigurationItem_flatten (m : TfMap) (hm : HasNatIpShape m) :
    ∃ r, expandIPConfigurationItem m = some r ∧ MapEq (flattenIPConfigurationItem r) m := by
  obtain ⟨⟨n, hn⟩, ⟨a, ha⟩, ⟨v, hv⟩, ⟨s, hs⟩, ⟨b, hb⟩, hrest⟩ := hm
  have hexp : ∃ meth, expandIPConfigurationItem m = some
      { Name := some n
        Properties := some
          { PrivateIPAddress := some a
            PrivateIPAllocationMethod := meth
            PrivateIPAddressVersion := v
            Subnet := some { ID := some s }
            Primary := some b } } := by
    by_cases hae : a = ""
    · exact ⟨"Dynamic", by
        simp [expandIPConfigurationItem, hn, ha, hv, hs, hb, asString, asBool, hae,
          setPrivateIPAllocationMethod]⟩
    · exact ⟨"Static", by
        simp [expandIPConfigurationItem, hn, ha, hv, hs, hb, asString, asBool, hae,
          setPrivateIPAllocationMethod]⟩
  obtain ⟨meth, hexp⟩ := hexp
  refine ⟨_, hexp, ?_⟩
  intro k
  have hflat : flattenIPConfigurationItem
      { Name := some n
        Properties := some
          { PrivateIPAddress := some a
            PrivateIPAllocationMethod := meth
            PrivateIPAddressVersion := v
            Subnet := some { ID := some s }
            Primary := some b } } =
      [("name", Value.str n), ("private_ip_address", Value.str a),
       ("private_ip_address_version", Value.str v), ("subnet_id", Value.str s),
       ("primary", Value.bool b)] := by
    simp [flattenIPConfigurationItem, TfMap.put]
  rw [hflat]
  simp only [TfMap.at_cons, TfMap.at_nil]
  by_cases h1 : k = "name"
  · subst h1; simp [hn]
  by_cases h2 : k = "private_ip_address"
  · subst h2; simp [ha]
  by_cases h3 : k = "private_ip_address_version"
  · subst h3; simp [hv]
  by_cases h4 : k = "subnet_id"
  · subst h4; simp [hs]
  by_cases h5 : k = "primary"
  · subst h5; simp [hb]
  have hk : k ∉ natIpConfigurationKeys := by
    simp [natIpConfigurationKeys, h1, h2, h3, h4, h5]
  simp [h1, h2, h3, h4, h5, hrest k hk]

theorem flattenIPConfigurationLoop_eq (rs : List PrivateLinkServiceIPConfiguration)
    (acc : List TfMap) :
    flattenIPConfigurationLoop rs acc = acc ++ rs.map flattenIPConfigurationItem := by
  induction rs generalizing acc with
  | nil => simp [flattenIPConfigurationLoop]
  | cons r rest ih => simp [flattenIPConfigurationLoop, ih]

theorem expandIPConfigurationLoop_shaped (xs : List TfMap) (hx : ∀ m ∈ xs, HasNatIpShape m)
    (acc : List PrivateLinkServiceIPConfiguration) :
    ∃ rs, expandIPConfigurationLoop xs acc = some (acc ++ rs) ∧
      List.Forall₂ MapEq (rs.map flattenIPConfigurationItem) xs := by
  induction xs generalizing acc with
  | nil => exact ⟨[], by simp [expandIPConfigurationLoop], by simp⟩
  | cons m rest ih =>
    obtain ⟨r, hr, hrm⟩ := expandIPConfigurationItem_flatten m (hx m (by simp))
    obtain ⟨rs, hrs, hall⟩ := ih (fun m' hm' => hx m' (by simp [hm'])) (acc ++ [r])
    refine ⟨r :: rs, ?_, ?_⟩
    · simp [expandIPConfigurationLoop, hr, hrs]
    · simpa using And.intro hrm hall

theorem sampleNatIp_shape : HasNatIpShape sampleNatIp := by
  refine ⟨⟨"primary", by decide⟩, ⟨"10.5.1.17", by decide⟩, ⟨"IPv4", by decide⟩,
    ⟨"subnet1", by decide⟩, ⟨true, by decide⟩, ?_⟩
  intro k hk
  simp only [natIpConfigurationKeys, List.mem_cons, List.mem_singleton, List.not_mem_nil,
    or_false, not_or] at hk
  obtain ⟨h1, h2, h3, h4, h5⟩ := hk
  simp [sampleNatIp, TfMap.at_cons, TfMap.at_nil, h1, h2, h3, h4, h5]

theorem sampleData_shape : ∀ m ∈ sampleData.GetList "nat_ip_configuration", HasNatIpShape m := by
  intro m hm
  have hlist : sampleData.GetList "nat_ip_configuration" = [sampleNatIp] := by decide
  rw [hlist, List.mem_singleton] at hm
  subst hm
  exact sampleNatIp_shape

theorem SchemaSet.Add_fresh (F : String → Int) (s : SchemaSet) (x : String)
    (hx : F x ∉ s.map F) : SchemaSet.Add F s x = s ++ [x] := by
  unfold SchemaSet.Add
  have : s.any (fun y => F y == F x) = false := by
    rw [List.any_eq_false]
    intro y hy
    simp only [beq_iff_eq]
    intro hxy
    exact hx (by rw [← hxy]; exact List.mem_map_of_mem F hy)
  simp [this]

theorem expandFrontendIPConfigurationLoop_eq (ids : List String)
    (acc : List FrontendIPConfiguration) :
    expandFrontendIPConfigurationLoop ids acc =
      acc ++ ids.map (fun i => ({ ID := some i } : FrontendIPConfiguration)) := by
  induction ids generalizing acc with
  | nil => simp [expandFrontendIPConfigurationLoop]
  | cons i rest ih => simp [expandFrontendIPConfigurationLoop, ih]

theorem flattenFrontendIPConfigurationLoop_of_set (F : String → Int) (ids : List String)
    (acc : SchemaSet) (h : ((acc ++ ids).map F).Nodup) :
    flattenFrontendIPConfigurationLoop F
      (ids.map (fun i => ({ ID := some i } : FrontendIPConfiguration))) acc = acc ++ ids := by
  induction ids generalizing acc with
  | nil => simp [flattenFrontendIPConfigurationLoop]
  | cons i rest ih =>
    have hi : F i ∉ acc.map F := by
      intro hmem
      rw [List.map_append, List.nodup_append] at h
      exact h.2.2 hmem (by simp)
    simp only [List.map_cons, flattenFrontendIPConfigurationLoop]
    rw [SchemaSet.Add_fresh F acc i hi, ih]
    · simp
    · simpa using h

/-! ## Lemmas on the handlers -/

theorem importCheck_none (h : Helpers) (c : CreateUpdateCalls) (name resourceGroup : String)
    (st st' : St) (hc : importCheck h c name resourceGroup st = (st', none)) :
    st'.d = st.d ∧ (st'.trace = st.trace ∨
      st'.trace = st.trace ++ [Event.get resourceGroup name]) := by
  unfold importCheck at hc
  dsimp only at hc
  split at hc
  · split at hc
    · simp at hc
    · split at hc
      · split at hc
        · simp at hc
        · simp only [Prod.mk.injEq, and_true] at hc
          subst hc
          simp [St.call]
      · simp only [Prod.mk.injEq, and_true] at hc
        subst hc
        simp [St.call]
  · simp only [Prod.mk.injEq, and_true] at hc
    subst hc
    simp

theorem importCheck_some (h : Helpers) (c : CreateUpdateCalls) (name resourceGroup : String)
    (st st' : St) (ret : Ret) (hc : importCheck h c name resourceGroup st = (st', some ret)) :
    st'.d = st.d ∧ st'.trace = st.trace ++ [Event.get resourceGroup name] ∧
      ∃ msg, ret = Ret.error msg := by
  unfold importCheck at hc
  dsimp only at hc
  split at hc
  · split at hc
    · simp only [Prod.mk.injEq, Option.some.injEq] at hc
      obtain ⟨h1, h2⟩ := hc
      subst h1 h2
      simp [St.call]
    · split at hc
      · split at hc
        · simp only [Prod.mk.injEq, Option.some.injEq] at hc
          obtain ⟨h1, h2⟩ := hc
          subst h1 h2
          simp [St.call]
        · simp at hc
      · simp at hc
  · simp at hc

/-- Create after the import check: either every step succeeds and the six
events of a creation follow each other, or a step fails and nothing is written. -/
theorem createUpdateFrom_cases (h : Helpers) (c : CreateUpdateCalls) (name resourceGroup : String)
    (st : St) :
    (c.createOrUpdate = none ∧ c.waitForCompletion = none ∧ c.get.2 = none ∧
      c.waitForState = none ∧
      ∃ i parameters, c.get.1.ID = some i ∧ i ≠ "" ∧
        createUpdateParameters h st.d = some parameters ∧
        createUpdateFrom h c name resourceGroup st =
          { d := (resourceArmPrivateLinkServiceRead h c.read (st.d.SetId i)).d
            ret := (resourceArmPrivateLinkServiceRead h c.read (st.d.SetId i)).ret
            trace := st.trace ++ [Event.createOrUpdate resourceGroup name parameters,
              Event.waitForCompletion, Event.get resourceGroup name, Event.waitForState,
              Event.setId i, Event.read] ++
              (resourceArmPrivateLinkServiceRead h c.read (st.d.SetId i)).trace }) ∨
    ((c.createOrUpdate ≠ none ∨ c.waitForCompletion ≠ none ∨ c.get.2 ≠ none ∨
        c.get.1.ID = none ∨ c.get.1.ID = some "" ∨ c.waitForState ≠ none ∨
        createUpdateParameters h st.d = none) ∧
      (createUpdateFrom h c name resourceGroup st).d = st.d ∧
      (createUpdateFrom h c name resourceGroup st).ret ≠ Ret.nil ∧
      (createUpdateParameters h st.d ≠ none →
        ∃ msg, (createUpdateFrom h c name resourceGroup st).ret = Ret.error msg) ∧
      ∃ post, (createUpdateFrom h c name resourceGroup st).trace = st.trace ++ post ∧
        Event.read ∉ post ∧ ∀ id, Event.setId id ∉ post) := by
  unfold createUpdateFrom
  rcases hp : createUpdateParameters h st.d with _ | parameters
  · right
    simp [St.done]
  rcases h1 : c.createOrUpdate with _ | e1
  swap
  · right
    simp [St.done, St.call]
  rcases h2 : c.waitForCompletion with _ | e2
  swap
  · right
    simp [St.done, St.call]
  rcases h3 : c.get.2 with _ | e3
  swap
  · right
    simp [St.done, St.call]
  rcases h4 : c.get.1.ID with _ | i
  · right
    simp [St.done, St.call, h4]
  by_cases hi : i = ""
  · right
    subst hi
    simp [St.done, St.call, h4]
  rcases h5 : c.waitForState with _ | e5
  swap
  · right
    simp [St.done, St.call, hi, h4]
  left
  simp [St.done, St.call, St.SetId, hi, h4]


theorem createUpdateParameters_shaped (h : Helpers) (d : ResourceData)
    (hx : ∀ m ∈ d.GetList "nat_ip_configuration", HasNatIpShape m) :
    createUpdateParameters h d ≠ none := by
  unfold createUpdateParameters expandArmPrivateLinkServiceIPConfiguration
  obtain ⟨rs, hrs, -⟩ := expandIPConfigurationLoop_shaped _ hx []
  dsimp only
  split_ifs <;> simp [hrs]

theorem getPrivateIpAddress_failed (h : Helpers) (get : Interface × Option String)
    (networkInterfaceId : String) (st : St) (hget : get.2 ≠ none) :
    (getPrivateIpAddress h get networkInterfaceId st).2 = "" := by
  unfold getPrivateIpAddress
  rcases hp : h.ParseAzureResourceID networkInterfaceId with e | id
  · rfl
  · rcases hg : get.2 with _ | e
    · exact absurd hg hget
    · rfl

theorem endpointPrivateIpAddress_failed (h : Helpers) (get : Interface × Option String)
    (props : PrivateEndpointProperties) (st : St) (hget : get.2 ≠ none) :
    (endpointPrivateIpAddress h get props st).2 = "" := by
  unfold endpointPrivateIpAddress
  dsimp only
  split
  · split
    · split
      · exact getPrivateIpAddress_failed h get _ st hget
      · rfl
    · rfl
  · rfl

theorem St.Set_trace (h : Helpers) (st : St) (key : String) (value : AttrValue) :
    (St.Set h st key value).1.trace = st.trace ++ [Event.set key value] := by
  unfold St.Set
  cases h.SetError key value <;> rfl

theorem St.Set_error (h : Helpers) (st : St) (key : String) (value : AttrValue) :
    (St.Set h st key value).2 = h.SetError key value := by
  unfold St.Set
  cases h.SetError key value <;> rfl

theorem endpointReadProperties_failed (h : Helpers) (get : Interface × Option String)
    (props : PrivateEndpointProperties) (st : St) (hget : get.2 ≠ none) :
    Event.set "private_service_connection"
        (AttrValue.mapList (dataSourceFlattenArmPrivateLinkEndpointServiceConnection
          props.PrivateLinkServiceConnections props.ManualPrivateLinkServiceConnections ""))
        ∈ (endpointReadProperties h get props st).trace ∧
    (endpointReadProperties h get props st).ret =
      match h.SetError "private_service_connection"
        (AttrValue.mapList (dataSourceFlattenArmPrivateLinkEndpointServiceConnection
          props.PrivateLinkServiceConnections props.ManualPrivateLinkServiceConnections ""))
      with
      | some err => Ret.error ("Error setting `private_service_connection`: " ++ err)
      | none => Ret.nil := by
  unfold endpointReadProperties
  dsimp only
  rw [endpointPrivateIpAddress_failed h get props st hget]
  unfold St.Set
  cases h.SetError "private_service_connection"
    (AttrValue.mapList (dataSourceFlattenArmPrivateLinkEndpointServiceConnection
      props.PrivateLinkServiceConnections props.ManualPrivateLinkServiceConnections "")) <;>
    simp [St.done]

/-! ## The claims -/

/-- Claim C1, the code at the failing input: `client.ListComplete` fails and
returns an iterator that is done. The loop body, which holds the only check of
the error, is never entered: the read writes an empty `recommendations` list,
sets the ID and returns nil. -/
theorem C1_failed_listing_read_returns_nil :
    listFailedCalls.listComplete.2 = some "StatusCode=500" ∧
    listFailedCalls.listComplete.1.NotDone = false ∧
    dataSourceArmAdvisorRecommendationsRead sampleHelpers listFailedCalls sampleAdvisorData =
      { d := { id := "avdisor/recommendations/2020-03-01 10:00:00 +0000 UTC"
               isNewResource := false
               attrs := [("recommendations", AttrValue.mapList [])] }
        ret := Ret.nil
        trace := [Event.listComplete "", Event.set "recommendations" (AttrValue.mapList []),
          Event.setId "avdisor/recommendations/2020-03-01 10:00:00 +0000 UTC"] } := by
  decide

/-- Claim C2: on every list of `nat_ip_configuration` maps that have exactly
the five keys of the schema at their types, the expansion does not panic and
flattening its result gives a list of the same length whose maps hold, in the
same order, the same key/value pairs; the expansion of the empty list is nil
and the flattening of nil is the empty list. -/
theorem C2_flatten_expand_nat_ip_configuration (xs : List TfMap) (hx : ∀ m ∈ xs, HasNatIpShape m) :
    (∃ r, expandArmPrivateLinkServiceIPConfiguration xs = some r ∧
      List.Forall₂ MapEq (flattenArmPrivateLinkServiceIPConfiguration r) xs) ∧
    expandArmPrivateLinkServiceIPConfiguration [] = some none ∧
    flattenArmPrivateLinkServiceIPConfiguration none = [] := by
  refine ⟨?_, rfl, rfl⟩
  cases xs with
  | nil => exact ⟨none, rfl, by simp [flattenArmPrivateLinkServiceIPConfiguration]⟩
  | cons m rest =>
    obtain ⟨rs, hrs, hall⟩ := expandIPConfigurationLoop_shaped (m :: rest) hx []
    refine ⟨some rs, ?_, ?_⟩
    · simp [expandArmPrivateLinkServiceIPConfiguration, hrs]
    · simpa [flattenArmPrivateLinkServiceIPConfiguration, flattenIPConfigurationLoop_eq]
        using hall

/-- Claim C2 at a list of one map. -/
theorem C2_witness :
    (∃ r, expandArmPrivateLinkServiceIPConfiguration [sampleNatIp] = some r ∧
      List.Forall₂ MapEq (flattenArmPrivateLinkServiceIPConfiguration r) [sampleNatIp]) ∧
    expandArmPrivateLinkServiceIPConfiguration [] = some none ∧
    flattenArmPrivateLinkServiceIPConfiguration none = [] :=
  C2_flatten_expand_nat_ip_configuration [sampleNatIp]
    (fun m hm => by
      rw [List.mem_singleton] at hm
      subst hm
      exact sampleNatIp_shape)

/-- Claim C3: for every set `s` of strings built with the hash function `F`,
flattening the expansion of `s` gives a set with exactly the elements of `s`;
the expansion of the empty set is nil. -/
theorem C3_flatten_expand_frontend_ip_configuration (F : String → Int) (s : SchemaSet) (hs : SchemaSet.IsSet F s) :
    (∀ x : String,
      x ∈ (flattenArmPrivateLinkServiceFrontendIPConfiguration F
            (expandArmPrivateLinkServiceFrontendIPConfiguration s)).List ↔ x ∈ s.List) ∧
    SchemaSet.IsSet F (flattenArmPrivateLinkServiceFrontendIPConfiguration F
      (expandArmPrivateLinkServiceFrontendIPConfiguration s)) ∧
    (s.List = [] → expandArmPrivateLinkServiceFrontendIPConfiguration s = none) := by
  have key : flattenArmPrivateLinkServiceFrontendIPConfiguration F
      (expandArmPrivateLinkServiceFrontendIPConfiguration s) = s := by
    cases s with
    | nil => rfl
    | cons a t =>
      simp only [expandArmPrivateLinkServiceFrontendIPConfiguration, SchemaSet.List,
        List.length_cons, Nat.succ_ne_zero, if_false, Nat.add_one_ne_zero,
        flattenArmPrivateLinkServiceFrontendIPConfiguration]
      rw [expandFrontendIPConfigurationLoop_eq, List.nil_append,
        flattenFrontendIPConfigurationLoop_of_set F (a :: t) [] (by simpa [SchemaSet.IsSet] using hs)]
      simp
  rw [key]
  refine ⟨fun x => Iff.rfl, hs, ?_⟩
  intro h
  simp only [SchemaSet.List] at h
  subst h
  rfl

/-- Claim C3 at a set of two ids. -/
theorem C3_witness :
    (∀ x : String,
      x ∈ (flattenArmPrivateLinkServiceFrontendIPConfiguration sampleHelpers.HashString
            (expandArmPrivateLinkServiceFrontendIPConfiguration ["lb1", "lb-22"])).List ↔
        x ∈ SchemaSet.List ["lb1", "lb-22"]) ∧
    SchemaSet.IsSet sampleHelpers.HashString
      (flattenArmPrivateLinkServiceFrontendIPConfiguration sampleHelpers.HashString
        (expandArmPrivateLinkServiceFrontendIPConfiguration ["lb1", "lb-22"])) ∧
    (SchemaSet.List ["lb1", "lb-22"] = [] →
      expandArmPrivateLinkServiceFrontendIPConfiguration ["lb1", "lb-22"] = none) :=
  C3_flatten_expand_frontend_ip_configuration sampleHelpers.HashString ["lb1", "lb-22"]
    (by unfold SchemaSet.IsSet; decide)

/-- Claim C4: when the ID of the resource parses and the `Get` of Read fails
with a not-found response, Read returns nil, sets the ID to the empty string
and leaves every attribute as it was: after the `Get` its only write is
`SetId("")`. -/
theorem C4_read_not_found_removes_from_state (h : Helpers) (get : PrivateLinkService × Option String) (d : ResourceData)
    (id : ResourceID) (e : String)
    (hparse : h.ParseAzureResourceID d.id = Except.ok id)
    (herr : get.2 = some e)
    (hnf : h.ResponseWasNotFound get.1.Response = true) :
    (resourceArmPrivateLinkServiceRead h get d).ret = Ret.nil ∧
    (resourceArmPrivateLinkServiceRead h get d).d = { d with id := "" } ∧
    (resourceArmPrivateLinkServiceRead h get d).trace =
      [Event.get id.ResourceGroup (id.path "privateLinkServices"), Event.setId ""] := by
  simp [resourceArmPrivateLinkServiceRead, hparse, herr, hnf, St.done, St.SetId,
    St.call, ResourceData.SetId]

/-- Claim C4 at a `Get` answered with status 404. -/
theorem C4_witness :
    (resourceArmPrivateLinkServiceRead sampleHelpers (emptyService 404, some "StatusCode=404")
      sampleState).ret = Ret.nil ∧
    (resourceArmPrivateLinkServiceRead sampleHelpers (emptyService 404, some "StatusCode=404")
      sampleState).d = { sampleState with id := "" } ∧
    (resourceArmPrivateLinkServiceRead sampleHelpers (emptyService 404, some "StatusCode=404")
      sampleState).trace = [Event.get "group1" "service1", Event.setId ""] :=
  C4_read_not_found_removes_from_state sampleHelpers (emptyService 404, some "StatusCode=404")
    sampleState
    { ResourceGroup := "group1"
      Path := [("privateLinkServices", "service1"), ("networkInterfaces", "nic1")] }
    "StatusCode=404" rfl rfl (by decide)

/-- Claim C5: Create / Update calls `d.SetId` only after `CreateOrUpdate`, the
wait on its future, the follow-up `Get` with a non-nil non-empty ID and the
poll for the target state have succeeded, in this order (only the `Get` of
the import check may come before them); when one of these steps fails, the
resource data is unchanged, `SetId` and Read are not called, the result is
never nil, and it is an error whenever the `nat_ip_configuration` maps have the
shape of the schema (so that building the request does not panic). -/
theorem C5_create_update_records_id_last (h : Helpers) (c : CreateUpdateCalls) (d : ResourceData) :
    (∀ id, Event.setId id ∈ (resourceArmPrivateLinkServiceCreateUpdate h c d).trace →
      c.createOrUpdate = none ∧ c.waitForCompletion = none ∧ c.get.2 = none ∧
      c.waitForState = none ∧
      ∃ i pre parameters, c.get.1.ID = some i ∧ i ≠ "" ∧
        (∀ e ∈ pre, e = Event.get (d.GetString "resource_group_name") (d.GetString "name")) ∧
        (resourceArmPrivateLinkServiceCreateUpdate h c d).trace =
          pre ++ [Event.createOrUpdate (d.GetString "resource_group_name") (d.GetString "name")
              parameters,
            Event.waitForCompletion,
            Event.get (d.GetString "resource_group_name") (d.GetString "name"),
            Event.waitForState, Event.setId i, Event.read] ++
            (resourceArmPrivateLinkServiceRead h c.read (d.SetId i)).trace) ∧
    ((c.createOrUpdate ≠ none ∨ c.waitForCompletion ≠ none ∨ c.get.2 ≠ none ∨
        c.get.1.ID = none ∨ c.get.1.ID = some "" ∨ c.waitForState ≠ none) →
      (resourceArmPrivateLinkServiceCreateUpdate h c d).d = d ∧
      (resourceArmPrivateLinkServiceCreateUpdate h c d).ret ≠ Ret.nil ∧
      Event.read ∉ (resourceArmPrivateLinkServiceCreateUpdate h c d).trace ∧
      (∀ id, Event.setId id ∉ (resourceArmPrivateLinkServiceCreateUpdate h c d).trace) ∧
      ((∀ m ∈ d.GetList "nat_ip_configuration", HasNatIpShape m) →
        ∃ msg, (resourceArmPrivateLinkServiceCreateUpdate h c d).ret = Ret.error msg)) := by
  unfold resourceArmPrivateLinkServiceCreateUpdate
  dsimp only
  rcases hic : importCheck h c (d.GetString "name") (d.GetString "resource_group_name")
      { d := d, trace := [] } with ⟨st, _ | ret⟩
  · obtain ⟨hd, htr⟩ := importCheck_none _ _ _ _ _ _ hic
    simp only [List.nil_append] at htr
    dsimp only at hd
    have hpre : ∀ e ∈ st.trace,
        e = Event.get (d.GetString "resource_group_name") (d.GetString "name") := by
      rcases htr with htr | htr <;> simp [htr]
    dsimp only
    rcases createUpdateFrom_cases h c (d.GetString "name") (d.GetString "resource_group_name") st
      with ⟨h1, h2, h3, h4, i, p, hi, hne, hp, heq⟩ | ⟨hfail, hd', hret, herr, post, htrace, hr, hs⟩
    · rw [heq, hd]
      refine ⟨fun _ _ => ⟨h1, h2, h3, h4, i, st.trace, p, hi, hne, hpre, rfl⟩, ?_⟩
      intro hf
      simp [h1, h2, h3, h4, hi, hne] at hf
    · refine ⟨?_, ?_⟩
      · intro id hid
        rw [htrace, List.mem_append] at hid
        rcases hid with hid | hid
        · have := hpre _ hid
          simp at this
        · exact absurd hid (hs id)
      · intro _
        refine ⟨hd'.trans hd, hret, ?_, ?_, ?_⟩
        · rw [htrace, List.mem_append]
          rintro (hm | hm)
          · have := hpre _ hm
            simp at this
          · exact hr hm
        · intro id
          rw [htrace, List.mem_append]
          rintro (hm | hm)
          · have := hpre _ hm
            simp at this
          · exact hs id hm
        · intro hx
          exact herr (by rw [hd]; exact createUpdateParameters_shaped h d hx)
  · obtain ⟨hd, htr, msg, hmsg⟩ := importCheck_some _ _ _ _ _ _ _ hic
    simp only [List.nil_append] at htr
    dsimp only at hd
    subst hmsg
    simp [St.done, htr, hd]

/-- Claim C5 at a run whose poll fails, and at a run in which every step
succeeds. -/
theorem C5_witness :
    ((resourceArmPrivateLinkServiceCreateUpdate sampleHelpers pollFailedCalls sampleData).d =
        sampleData ∧
      Event.read ∉
        (resourceArmPrivateLinkServiceCreateUpdate sampleHelpers pollFailedCalls sampleData).trace ∧
      ∃ msg, (resourceArmPrivateLinkServiceCreateUpdate sampleHelpers pollFailedCalls
        sampleData).ret = Ret.error msg) ∧
    (sampleCalls.createOrUpdate = none ∧ sampleCalls.waitForCompletion = none ∧
      sampleCalls.get.2 = none ∧ sampleCalls.waitForState = none) :=
  ⟨⟨((C5_create_update_records_id_last sampleHelpers pollFailedCalls sampleData).2
        (by decide)).1,
    ((C5_create_update_records_id_last sampleHelpers pollFailedCalls sampleData).2
        (by decide)).2.2.1,
    ((C5_create_update_records_id_last sampleHelpers pollFailedCalls sampleData).2
        (by decide)).2.2.2.2 sampleData_shape⟩,
   ⟨((C5_create_update_records_id_last sampleHelpers sampleCalls sampleData).1
        "/subscriptions/sub1/resourceGroups/group1/providers/Microsoft.Network/privateLinkServices/service1"
        (by decide)).1,
    ((C5_create_update_records_id_last sampleHelpers sampleCalls sampleData).1
        "/subscriptions/sub1/resourceGroups/group1/providers/Microsoft.Network/privateLinkServices/service1"
        (by decide)).2.1,
    ((C5_create_update_records_id_last sampleHelpers sampleCalls sampleData).1
        "/subscriptions/sub1/resourceGroups/group1/providers/Microsoft.Network/privateLinkServices/service1"
        (by decide)).2.2.1,
    ((C5_create_update_records_id_last sampleHelpers sampleCalls sampleData).1
        "/subscriptions/sub1/resourceGroups/group1/providers/Microsoft.Network/privateLinkServices/service1"
        (by decide)).2.2.2.1⟩⟩

/-- Claim C6 as stated fails: the existence lookup returns a non-nil non-empty
ID together with an error whose response is not not-found (status 200, the body
failed to decode). Create returns the error of the lookup, not the
"import as exists" error for that ID. -/
theorem C6_counterexample_failed_lookup_with_id :
    sampleHelpers.ShouldResourcesBeImported = true ∧
    sampleData.isNewResource = true ∧
    lookupFailedCalls.existing.1.ID = some "/subscriptions/sub1/resourceGroups/group1/providers/Microsoft.Network/privateLinkServices/service1" ∧
    (resourceArmPrivateLinkServiceCreateUpdate sampleHelpers lookupFailedCalls sampleData).ret ≠
      Ret.error (sampleHelpers.ImportAsExistsError "azurerm_private_link_service"
        "/subscriptions/sub1/resourceGroups/group1/providers/Microsoft.Network/privateLinkServices/service1") ∧
    (resourceArmPrivateLinkServiceCreateUpdate sampleHelpers lookupFailedCalls sampleData).ret =
      Ret.error ("Error checking for presence of existing Private Link Service \"service1\" " ++
        "(Resource Group \"group1\"): json: cannot unmarshal number into Go struct field") := by
  decide

/-- Claim C6, amended: when resources must be imported and the resource is
new, Create / Update makes no call but the lookup, and returns an error, if the
lookup returns a non-nil non-empty ID or fails with a response that is not
not-found. The error is the import-as-exists error for the ID when the lookup
succeeded or failed with a not-found response, and the error of the lookup
whenever the lookup failed with a response that is not not-found. -/
theorem C6_import_check_amended (h : Helpers) (c : CreateUpdateCalls) (d : ResourceData)
    (himp : h.ShouldResourcesBeImported = true) (hnew : d.isNewResource = true) :
    (((∃ id, c.existing.1.ID = some id ∧ id ≠ "") ∨
        (c.existing.2 ≠ none ∧ h.ResponseWasNotFound c.existing.1.Response = false)) →
      (∃ msg, (resourceArmPrivateLinkServiceCreateUpdate h c d).ret = Ret.error msg) ∧
      (resourceArmPrivateLinkServiceCreateUpdate h c d).d = d ∧
      (resourceArmPrivateLinkServiceCreateUpdate h c d).trace =
        [Event.get (d.GetString "resource_group_name") (d.GetString "name")] ∧
      ∀ resourceGroup name parameters, Event.createOrUpdate resourceGroup name parameters ∉
        (resourceArmPrivateLinkServiceCreateUpdate h c d).trace) ∧
    (∀ id, c.existing.1.ID = some id → id ≠ "" →
      (c.existing.2 = none ∨ h.ResponseWasNotFound c.existing.1.Response = true) →
      (resourceArmPrivateLinkServiceCreateUpdate h c d).ret =
        Ret.error (h.ImportAsExistsError "azurerm_private_link_service" id)) ∧
    (∀ e, c.existing.2 = some e → h.ResponseWasNotFound c.existing.1.Response = false →
      (resourceArmPrivateLinkServiceCreateUpdate h c d).ret =
        Ret.error ("Error checking for presence of existing Private Link Service " ++
          h.quote (d.GetString "name") ++ " (Resource Group " ++
          h.quote (d.GetString "resource_group_name") ++ "): " ++ e)) := by
  have hchk : ∀ e, c.existing.2 = some e → h.ResponseWasNotFound c.existing.1.Response = false →
      importCheck h c (d.GetString "name") (d.GetString "resource_group_name")
        { d := d, trace := [] } =
      (({ d := d, trace := [] } : St).call
          (Event.get (d.GetString "resource_group_name") (d.GetString "name")),
        some (Ret.error ("Error checking for presence of existing Private Link Service " ++
          h.quote (d.GetString "name") ++ " (Resource Group " ++
          h.quote (d.GetString "resource_group_name") ++ "): " ++ e))) := by
    intro e he hnf
    simp [importCheck, himp, hnew, he, hnf, errText]
  have hid : ∀ id, c.existing.1.ID = some id → id ≠ "" →
      (c.existing.2 = none ∨ h.ResponseWasNotFound c.existing.1.Response = true) →
      importCheck h c (d.GetString "name") (d.GetString "resource_group_name")
        { d := d, trace := [] } =
      (({ d := d, trace := [] } : St).call
          (Event.get (d.GetString "resource_group_name") (d.GetString "name")),
        some (Ret.error (h.ImportAsExistsError "azurerm_private_link_service" id))) := by
    intro id hi hne hok
    rcases hok with hok | hok <;> simp [importCheck, himp, hnew, hi, hne, hok]
  refine ⟨?_, ?_, ?_⟩
  · intro hcase
    have : ∃ msg, importCheck h c (d.GetString "name") (d.GetString "resource_group_name")
        { d := d, trace := [] } =
        (({ d := d, trace := [] } : St).call
          (Event.get (d.GetString "resource_group_name") (d.GetString "name")),
          some (Ret.error msg)) := by
      by_cases hf : c.existing.2 ≠ none ∧ h.ResponseWasNotFound c.existing.1.Response = false
      · obtain ⟨hf1, hf2⟩ := hf
        obtain ⟨e, he⟩ := Option.ne_none_iff_exists'.mp hf1
        exact ⟨_, hchk e he hf2⟩
      · rcases hcase with ⟨id, hi, hne⟩ | hf'
        · refine ⟨_, hid id hi hne ?_⟩
          by_cases h1 : c.existing.2 = none
          · exact Or.inl h1
          · right
            by_contra h2
            exact hf ⟨h1, by simpa using h2⟩
        · exact absurd hf' hf
    obtain ⟨msg, hmsg⟩ := this
    simp [resourceArmPrivateLinkServiceCreateUpdate, hmsg, St.done, St.call]
  · intro id hi hne hok
    simp [resourceArmPrivateLinkServiceCreateUpdate, hid id hi hne hok, St.done]
  · intro e he hnf
    simp [resourceArmPrivateLinkServiceCreateUpdate, hchk e he hnf, St.done]

/-- Claim C6, amended, at a lookup that finds the resource. -/
theorem C6_witness :
    (resourceArmPrivateLinkServiceCreateUpdate sampleHelpers existingCalls sampleData).ret =
      Ret.error (sampleHelpers.ImportAsExistsError "azurerm_private_link_service"
        "/subscriptions/sub1/resourceGroups/group1/providers/Microsoft.Network/privateLinkServices/service1") ∧
    (resourceArmPrivateLinkServiceCreateUpdate sampleHelpers existingCalls sampleData).trace =
      [Event.get (sampleData.GetString "resource_group_name") (sampleData.GetString "name")] :=
  ⟨(C6_import_check_amended sampleHelpers existingCalls sampleData rfl rfl).2.1
      "/subscriptions/sub1/resourceGroups/group1/providers/Microsoft.Network/privateLinkServices/service1"
      rfl (by decide) (Or.inl rfl),
   ((C6_import_check_amended sampleHelpers existingCalls sampleData rfl rfl).1
      (Or.inl ⟨"/subscriptions/sub1/resourceGroups/group1/providers/Microsoft.Network/privateLinkServices/service1",
        rfl, by decide⟩)).2.2.1⟩

/-- Claim C7: when the ID of the resource parses, Delete returns nil exactly
when `client.Delete` and the wait on its future both succeed, or the step that
failed has a not-found response; in every other case it returns an error. -/
theorem C7_delete_returns_nil_iff (h : Helpers) (c : DeleteCalls) (d : ResourceData) (id : ResourceID)
    (hparse : h.ParseAzureResourceID d.id = Except.ok id) :
    ((resourceArmPrivateLinkServiceDelete h c d).ret = Ret.nil ↔
      (c.delete.2 = none ∧ c.waitForCompletion.2 = none) ∨
      (c.delete.2 ≠ none ∧ h.WasNotFound c.delete.1 = true) ∨
      (c.delete.2 = none ∧ c.waitForCompletion.2 ≠ none ∧
        h.WasNotFound c.waitForCompletion.1 = true)) ∧
    ((resourceArmPrivateLinkServiceDelete h c d).ret ≠ Ret.nil →
      ∃ msg, (resourceArmPrivateLinkServiceDelete h c d).ret = Ret.error msg) := by
  unfold resourceArmPrivateLinkServiceDelete
  simp only [hparse]
  rcases hd : c.delete.2 with _ | e
  · rcases hw : c.waitForCompletion.2 with _ | e'
    · simp [St.done]
    · by_cases hnf : h.WasNotFound c.waitForCompletion.1 = true <;> simp [St.done, hnf]
  · by_cases hnf : h.WasNotFound c.delete.1 = true <;> simp [St.done, hnf]

/-- Claim C7 at a `Delete` answered with status 404. -/
theorem C7_witness :
    (resourceArmPrivateLinkServiceDelete sampleHelpers notFoundDeleteCalls sampleState).ret =
      Ret.nil :=
  (C7_delete_returns_nil_iff sampleHelpers notFoundDeleteCalls sampleState
    { ResourceGroup := "group1"
      Path := [("privateLinkServices", "service1"), ("networkInterfaces", "nic1")] }
    rfl).1.mpr (Or.inr (Or.inl ⟨by decide, by decide⟩))

/-- Claim C8 as stated fails: the endpoint `Get` succeeds, the network
interface `Get` issued by `getPrivateIpAddress` fails, and the read returns nil
after writing the connection with an empty private IP address. -/
theorem C8_counterexample_interface_get_fails :
    interfaceFailedCalls.get.2 = none ∧
    interfaceFailedCalls.interfaceGet.2 = some "StatusCode=500" ∧
    Event.interfaceGet "group1" "nic1" ∈
      (dataSourceArmPrivateLinkEndpointConnectionRead sampleHelpers interfaceFailedCalls
        sampleEndpointData).trace ∧
    (dataSourceArmPrivateLinkEndpointConnectionRead sampleHelpers interfaceFailedCalls
      sampleEndpointData).ret = Ret.nil ∧
    List.lookup "private_service_connection"
      (dataSourceArmPrivateLinkEndpointConnectionRead sampleHelpers interfaceFailedCalls
        sampleEndpointData).d.attrs =
      some (AttrValue.mapList
        [[("private_ip_address", Value.str ""), ("name", Value.str "connection1"),
          ("status", Value.str "Approved"), ("request_response", Value.str "Auto-Approved")]]) := by
  decide

/-- Claim C8, amended: a failure of the network interface `Get` is not
returned. `getPrivateIpAddress` then gives the empty string, and a read whose
endpoint `Get` succeeded with a non-empty ID and non-nil properties writes
`private_service_connection` with the empty private IP address and returns nil,
or the error of that write when the write is rejected. A failure of the endpoint
`Get` whose response is not not-found is returned as an error that ends with the
text of the vendor error. -/
theorem C8_interface_failure_is_swallowed (h : Helpers) (c : EndpointReadCalls) (d : ResourceData) :
    (∀ nicId st, c.interfaceGet.2 ≠ none →
      (getPrivateIpAddress h c.interfaceGet nicId st).2 = "") ∧
    (∀ i props, c.get.2 = none → c.get.1.ID = some i → i ≠ "" →
      c.get.1.Properties = some props → c.interfaceGet.2 ≠ none →
      Event.set "private_service_connection"
        (AttrValue.mapList (dataSourceFlattenArmPrivateLinkEndpointServiceConnection
          props.PrivateLinkServiceConnections props.ManualPrivateLinkServiceConnections ""))
        ∈ (dataSourceArmPrivateLinkEndpointConnectionRead h c d).trace ∧
      (dataSourceArmPrivateLinkEndpointConnectionRead h c d).ret =
        match h.SetError "private_service_connection"
          (AttrValue.mapList (dataSourceFlattenArmPrivateLinkEndpointServiceConnection
            props.PrivateLinkServiceConnections props.ManualPrivateLinkServiceConnections ""))
        with
        | some err => Ret.error ("Error setting `private_service_connection`: " ++ err)
        | none => Ret.nil) ∧
    (∀ e, c.get.2 = some e → h.ResponseWasNotFound c.get.1.Response = false →
      (dataSourceArmPrivateLinkEndpointConnectionRead h c d).ret =
        Ret.error ("Error reading Private Link Endpoint " ++ h.quote (d.GetString "name") ++
          " (Resource Group " ++ h.quote (d.GetString "resource_group_name") ++ "): " ++ e)) := by
  refine ⟨fun nicId st hf => getPrivateIpAddress_failed h _ nicId st hf, ?_, ?_⟩
  · intro i props hg hid hne hprops hf
    have hcond : ¬ ((some i : Option String) = none ∨ (some i : Option String) = some "") := by
      simp [hne]
    have hread : dataSourceArmPrivateLinkEndpointConnectionRead h c d =
        endpointReadProperties h c.interfaceGet props
          (endpointReadHeader h c.get.1 (d.GetString "resource_group_name")
            (({ d := d, trace := [] } : St).call
              (Event.endpointGet (d.GetString "resource_group_name") (d.GetString "name")))) := by
      unfold dataSourceArmPrivateLinkEndpointConnectionRead
      simp only [hg, hid, hprops, if_neg hcond]
    rw [hread]
    exact endpointReadProperties_failed h c.interfaceGet props _ hf
  · intro e he hnf
    simp [dataSourceArmPrivateLinkEndpointConnectionRead, he, hnf, St.done, St.call]

/-- Claim C8, amended, at a read whose network interface `Get` fails. -/
theorem C8_witness :
    (dataSourceArmPrivateLinkEndpointConnectionRead sampleHelpers interfaceFailedCalls
      sampleEndpointData).ret = Ret.nil :=
  ((C8_interface_failure_is_swallowed sampleHelpers interfaceFailedCalls sampleEndpointData).2.1
    "/subscriptions/sub1/resourceGroups/group1/providers/Microsoft.Network/privateEndpoints/endpoint1"
    { NetworkInterfaces := some [sampleInterfaceRef]
      PrivateLinkServiceConnections := some [sampleConnection]
      ManualPrivateLinkServiceConnections := none }
    rfl rfl (by decide) rfl (by decide)).2

/-- Claim C9: when the ID of the resource parses and the `Get` of Read fails
with a response that is not not-found, Read returns an error whose text ends
with the text of the vendor error, and changes neither the ID nor an attribute:
the `Get` is all it does. -/
theorem C9_read_failure_returns_error (h : Helpers) (get : PrivateLinkService × Option String) (d : ResourceData)
    (id : ResourceID) (e : String)
    (hparse : h.ParseAzureResourceID d.id = Except.ok id)
    (herr : get.2 = some e)
    (hnf : h.ResponseWasNotFound get.1.Response = false) :
    (resourceArmPrivateLinkServiceRead h get d).ret =
      Ret.error ("Error reading Private Link Service " ++ h.quote (id.path "privateLinkServices")
        ++ " (Resource Group " ++ h.quote id.ResourceGroup ++ "): " ++ e) ∧
    (resourceArmPrivateLinkServiceRead h get d).d = d ∧
    (resourceArmPrivateLinkServiceRead h get d).trace =
      [Event.get id.ResourceGroup (id.path "privateLinkServices")] := by
  simp [resourceArmPrivateLinkServiceRead, hparse, herr, hnf, St.done, St.call]

/-- Claim C9 at a `Get` answered with status 500. -/
theorem C9_witness :
    (resourceArmPrivateLinkServiceRead sampleHelpers (emptyService 500, some "StatusCode=500")
      sampleState).ret =
      Ret.error ("Error reading Private Link Service " ++ sampleHelpers.quote "service1" ++
        " (Resource Group " ++ sampleHelpers.quote "group1" ++ "): " ++ "StatusCode=500") ∧
    (resourceArmPrivateLinkServiceRead sampleHelpers (emptyService 500, some "StatusCode=500")
      sampleState).d = sampleState ∧
    (resourceArmPrivateLinkServiceRead sampleHelpers (emptyService 500, some "StatusCode=500")
      sampleState).trace = [Event.get "group1" "service1"] :=
  C9_read_failure_returns_error sampleHelpers (emptyService 500, some "StatusCode=500")
    sampleState
    { ResourceGroup := "group1"
      Path := [("privateLinkServices", "service1"), ("networkInterfaces", "nic1")] }
    "StatusCode=500" rfl rfl (by decide)

/-- Claim C10: in the read of the Private Link Endpoint Connection data
source, a `Get` that fails with a not-found response makes the read set the ID
to the empty string, write no attribute and return nil; a `Get` that fails
otherwise, or succeeds with a nil or empty ID, makes it return an error without
setting the ID or writing an attribute. -/
theorem C10_endpoint_read_failures (h : Helpers) (c : EndpointReadCalls) (d : ResourceData) :
    (∀ e, c.get.2 = some e → h.ResponseWasNotFound c.get.1.Response = true →
      (dataSourceArmPrivateLinkEndpointConnectionRead h c d).ret = Ret.nil ∧
      (dataSourceArmPrivateLinkEndpointConnectionRead h c d).d = { d with id := "" } ∧
      (dataSourceArmPrivateLinkEndpointConnectionRead h c d).trace =
        [Event.endpointGet (d.GetString "resource_group_name") (d.GetString "name"),
         Event.setId ""]) ∧
    (∀ e, c.get.2 = some e → h.ResponseWasNotFound c.get.1.Response = false →
      (∃ msg, (dataSourceArmPrivateLinkEndpointConnectionRead h c d).ret = Ret.error msg) ∧
      (dataSourceArmPrivateLinkEndpointConnectionRead h c d).d = d ∧
      (dataSourceArmPrivateLinkEndpointConnectionRead h c d).trace =
        [Event.endpointGet (d.GetString "resource_group_name") (d.GetString "name")]) ∧
    (c.get.2 = none → (c.get.1.ID = none ∨ c.get.1.ID = some "") →
      (∃ msg, (dataSourceArmPrivateLinkEndpointConnectionRead h c d).ret = Ret.error msg) ∧
      (dataSourceArmPrivateLinkEndpointConnectionRead h c d).d = d ∧
      (dataSourceArmPrivateLinkEndpointConnectionRead h c d).trace =
        [Event.endpointGet (d.GetString "resource_group_name") (d.GetString "name")]) := by
  refine ⟨?_, ?_, ?_⟩
  · intro e he hnf
    simp [dataSourceArmPrivateLinkEndpointConnectionRead, he, hnf, St.done, St.SetId, St.call,
      ResourceData.SetId]
  · intro e he hnf
    simp [dataSourceArmPrivateLinkEndpointConnectionRead, he, hnf, St.done, St.call]
  · intro he hid
    simp [dataSourceArmPrivateLinkEndpointConnectionRead, he, hid, St.done, St.call]

/-- Claim C10 at a `Get` answered with status 404. -/
theorem C10_witness :
    (dataSourceArmPrivateLinkEndpointConnectionRead sampleHelpers notFoundEndpointCalls
      sampleEndpointData).ret = Ret.nil ∧
    (dataSourceArmPrivateLinkEndpointConnectionRead sampleHelpers notFoundEndpointCalls
      sampleEndpointData).d = { sampleEndpointData with id := "" } ∧
    (dataSourceArmPrivateLinkEndpointConnectionRead sampleHelpers notFoundEndpointCalls
      sampleEndpointData).trace =
      [Event.endpointGet (sampleEndpointData.GetString "resource_group_name")
        (sampleEndpointData.GetString "name"), Event.setId ""] :=
  (C10_endpoint_read_failures sampleHelpers notFoundEndpointCalls sampleEndpointData).1
    "StatusCode=404" rfl (by decide)

/-! ## Lemmas on the private IP address, the advisor loop and the filter -/

theorem getPrivateIpAddressLoop_later (configs : List InterfaceIPConfiguration) (i : Nat)
    (hi : i ≠ 0) : getPrivateIpAddressLoop configs i "" = "" := by
  induction configs generalizing i with
  | nil => rfl
  | cons config rest ih =>
    unfold getPrivateIpAddressLoop
    rcases hc : config.Properties with _ | propFmt
    · exact ih (i + 1) (by omega)
    · rcases ha : propFmt.PrivateIPAddress with _ | a <;> simp [ha, hi]

theorem getPrivateIpAddress_ok (h : Helpers) (get : Interface × Option String)
    (networkInterfaceId : String) (st : St) (id : ResourceID)
    (hparse : h.ParseAzureResourceID networkInterfaceId = Except.ok id) (hget : get.2 = none) :
    (getPrivateIpAddress h get networkInterfaceId st).2 =
      firstConfigurationPrivateIpAddress get.1 := by
  unfold getPrivateIpAddress firstConfigurationPrivateIpAddress
  simp only [hparse, hget]
  rcases hp : get.1.Properties with _ | props
  · rfl
  · rcases hc : props.IPConfigurations with _ | configs
    · simp [hc]
    · cases configs with
      | nil => simp [hc, getPrivateIpAddressLoop]
      | cons config rest =>
        simp only [hc, getPrivateIpAddressLoop]
        rcases hq : config.Properties with _ | propFmt
        · simpa using getPrivateIpAddressLoop_later rest 1 (by omega)
        · rcases ha : propFmt.PrivateIPAddress with _ | a <;> simp [ha]

theorem getPrivateIpAddress_unparsed (h : Helpers) (get : Interface × Option String)
    (networkInterfaceId : String) (st : St) (e : String)
    (hparse : h.ParseAzureResourceID networkInterfaceId = Except.error e) :
    (getPrivateIpAddress h get networkInterfaceId st).2 = "" := by
  unfold getPrivateIpAddress
  simp only [hparse]

theorem advisorLoop_named (it : RecommendationIterator) (err : Option String)
    (recommends : List ResourceRecommendationBase) (st : St)
    (hrec : ∀ v ∈ recommends, HasName v) :
    ∀ v ∈ (advisorLoop it err recommends st).2.1, HasName v := by
  induction it generalizing err recommends st with
  | done => simpa [advisorLoop] using hrec
  | item value nextErr next ih =>
    unfold advisorLoop
    rcases err with _ | e
    · by_cases hn : value.Name = none ∨ value.Name = some ""
      · simpa [hn] using hrec
      · simp only [hn, if_false]
        apply ih
        intro v hv
        rw [List.mem_append, List.mem_singleton] at hv
        rcases hv with hv | hv
        · exact hrec v hv
        · subst hv
          rcases hv' : v.Name with _ | n
          · exact absurd (Or.inl hv') hn
          · refine ⟨n, hv', ?_⟩
            rintro rfl
            exact hn (Or.inr hv')
    · simpa using hrec

theorem advisorLoop_error (it : RecommendationIterator) (err : Option String)
    (recommends : List ResourceRecommendationBase) (st : St) (ret : Ret)
    (hret : (advisorLoop it err recommends st).2.2 = some ret) :
    ∃ msg, ret = Ret.error msg := by
  induction it generalizing err recommends st with
  | done => simp [advisorLoop] at hret
  | item value nextErr next ih =>
    unfold advisorLoop at hret
    rcases err with _ | e
    · by_cases hn : value.Name = none ∨ value.Name = some ""
      · simp only [hn, if_true, Option.some.injEq] at hret
        exact ⟨_, hret.symm⟩
      · simp only [hn, if_false] at hret
        exact ih _ _ _ hret
    · simp only [Option.some.injEq] at hret
      exact ⟨_, hret.symm⟩

theorem flattenRecommendationsLoop_named (recommends : List ResourceRecommendationBase)
    (result : List TfMap) (hrec : ∀ v ∈ recommends, HasName v) :
    flattenRecommendationsLoop recommends result ≠ none := by
  induction recommends generalizing result with
  | nil => simp [flattenRecommendationsLoop]
  | cons v rest ih =>
    obtain ⟨n, hn, -⟩ := hrec v (by simp)
    unfold flattenRecommendationsLoop
    simp only [flattenRecommendationItem, hn]
    exact ih _ (fun w hw => hrec w (by simp [hw]))

theorem flattenAzureRmAdvisorRecommendations_named
    (recommends : List ResourceRecommendationBase) (hrec : ∀ v ∈ recommends, HasName v) :
    flattenAzureRmAdvisorRecommendations recommends ≠ none := by
  unfold flattenAzureRmAdvisorRecommendations
  dsimp only
  split
  · simp
  · exact flattenRecommendationsLoop_named recommends [] hrec

theorem foldl_append_singleton {α β : Type} (f : α → β) (xs : List α) (acc : List β) :
    xs.foldl (fun result v => result ++ [f v]) acc = acc ++ xs.map f := by
  induction xs generalizing acc with
  | nil => simp
  | cons x rest ih => simp [ih]

theorem intercalate_go_clauses (t : String) (v : String) (rest : List String) (acc : String) :
    String.intercalate.go (acc ++ advisorClause t v) " or " (rest.map (advisorClause t)) =
      acc ++ joinClauses t (v :: rest) := by
  induction rest generalizing acc v with
  | nil => simp [String.intercalate.go, joinClauses]
  | cons w rest ih =>
    simp only [List.map_cons, String.intercalate.go]
    rw [ih]
    simp [joinClauses, String.append_assoc]

theorem expandAzureRmAdvisorRecommendationsMapString_cons (t v : String) (rest : List String) :
    expandAzureRmAdvisorRecommendationsMapString t (v :: rest) =
      "(" ++ joinClauses t (v :: rest) ++ ")" := by
  unfold expandAzureRmAdvisorRecommendationsMapString
  simp only [List.length_cons, Nat.add_one_ne_zero, if_false]
  rw [foldl_append_singleton (fun v => t ++ " eq '" ++ v ++ "'")]
  simp only [List.nil_append, List.map_cons, String.intercalate]
  have := intercalate_go_clauses t v rest ""
  simp only [String.empty_append] at this
  have hc : (fun v => t ++ " eq '" ++ v ++ "'") = advisorClause t := rfl
  rw [hc]
  show "(" ++ String.intercalate.go (advisorClause t v) " or " (List.map (advisorClause t) rest)
    ++ ")" = _
  rw [this]

theorem paren_ne_empty (x : String) : "(" ++ x ++ ")" ≠ "" := by
  intro h
  have := congrArg String.length h
  simp only [String.length_append] at this
  have h1 : "(".length = 1 := by decide
  have h2 : "".length = 0 := by decide
  omega

theorem advisorLoop_trace (it : RecommendationIterator) (err : Option String)
    (recommends : List ResourceRecommendationBase) (st : St) :
    ∃ post, (advisorLoop it err recommends st).1.trace = st.trace ++ post := by
  induction it generalizing err recommends st with
  | done => exact ⟨[], by simp [advisorLoop]⟩
  | item value nextErr next ih =>
    unfold advisorLoop
    rcases err with _ | e
    · by_cases hn : value.Name = none ∨ value.Name = some ""
      · exact ⟨[], by simp [hn]⟩
      · simp only [hn, if_false]
        obtain ⟨post, hpost⟩ := ih nextErr (recommends ++ [value]) (st.call Event.nextWithContext)
        exact ⟨Event.nextWithContext :: post, by rw [hpost]; simp [St.call]⟩
    · exact ⟨[], by simp⟩

/-- A string that is empty or stands between `(` and `)`. -/
theorem no_and_of_paren (f : String) (hf : f = "" ∨ ∃ x, f = "(" ++ x ++ ")") (s : String) :
    f ≠ " and " ++ s ∧ f ≠ s ++ " and " := by
  have hand : " and ".data = [' ', 'a', 'n', 'd', ' '] := by decide
  have hopen : "(".data = ['('] := by decide
  have hclose : ")".data = [')'] := by decide
  have hempty : "".data = [] := by decide
  rcases hf with rfl | ⟨x, rfl⟩
  · constructor
    · intro h
      have := congrArg String.data h
      simp [String.data_append, hand, hempty] at this
    · intro h
      have := congrArg String.data h
      simp [String.data_append, hand, hempty] at this
  · constructor
    · intro h
      have := congrArg String.data h
      simp [String.data_append, hand, hopen] at this
    · intro h
      have := congrArg (fun t => t.data.getLast?) h
      simp only [String.data_append, hand, hclose, hopen] at this
      rw [List.getLast?_append, List.getLast?_append] at this
      simp at this

theorem advisorFilterSpec_no_and (categories resourceGroups : List String) (s : String) :
    advisorFilterSpec categories resourceGroups ≠ " and " ++ s ∧
    advisorFilterSpec categories resourceGroups ≠ s ++ " and " := by
  apply no_and_of_paren
  cases categories with
  | nil =>
    cases resourceGroups with
    | nil => exact Or.inl rfl
    | cons r rs => exact Or.inr ⟨_, rfl⟩
  | cons v vs =>
    cases resourceGroups with
    | nil => exact Or.inr ⟨_, rfl⟩
    | cons r rs =>
      refine Or.inr ⟨joinClauses "Category" (v :: vs) ++ ")" ++ " and " ++ "(" ++
        joinClauses "ResourceGroup" (r :: rs), ?_⟩
      simp [advisorFilterSpec, String.append_assoc]

/-! ## Lemmas on the parsing of resource IDs and on the tag validation -/

theorem splitSlash_ne_nil (cs : List Char) : splitSlash cs ≠ [] := by
  cases cs with
  | nil => simp [splitSlash]
  | cons c cs =>
    unfold splitSlash
    split_ifs <;> simp

theorem splitSlash_cons (c : Char) (cs : List Char) :
    splitSlash (c :: cs) =
      if c = '/' then [] :: splitSlash cs
      else (c :: (splitSlash cs).headD []) :: (splitSlash cs).tail := rfl

theorem splitSlash_append_slash (xs : List Char) :
    splitSlash (xs ++ ['/']) = splitSlash xs ++ [[]] := by
  induction xs with
  | nil => simp [splitSlash]
  | cons c xs ih =>
    rw [List.cons_append, splitSlash_cons, splitSlash_cons, ih]
    obtain ⟨seg, segs, hs⟩ := List.exists_cons_of_ne_nil (splitSlash_ne_nil xs)
    rw [hs]
    split_ifs <;> simp

theorem splitSlash_of_not_mem (xs : List Char) (hx : '/' ∉ xs) : splitSlash xs = [xs] := by
  induction xs with
  | nil => rfl
  | cons c xs ih =>
    simp only [List.mem_cons, not_or] at hx
    have hc : c ≠ '/' := fun h => hx.1 h.symm
    simp [splitSlash, hc, ih hx.2]

theorem splitSlash_append (xs ys : List Char) (hx : '/' ∉ xs) :
    splitSlash (xs ++ '/' :: ys) = xs :: splitSlash ys := by
  induction xs with
  | nil => simp [splitSlash]
  | cons c xs ih =>
    simp only [List.mem_cons, not_or] at hx
    have hc : c ≠ '/' := fun h => hx.1 h.symm
    simp [splitSlash, hc, ih hx.2]

theorem splitSlash_trim (cs : List Char) :
    ∃ a b, splitSlash cs = a ++ splitSlash (trimSuffixSlash (trimPrefixSlash cs)) ++ b := by
  have hsuffix : ∀ xs : List Char, ∃ b, splitSlash xs = splitSlash (trimSuffixSlash xs) ++ b := by
    intro xs
    unfold trimSuffixSlash
    split_ifs with hl
    · refine ⟨[[]], ?_⟩
      have hx : xs = xs.dropLast ++ ['/'] := by
        have hne : xs ≠ [] := by
          rintro rfl
          simp at hl
        have := List.dropLast_append_getLast hne
        rw [List.getLast?_eq_getLast _ hne, Option.some.injEq] at hl
        rw [hl] at this
        exact this.symm
      conv_lhs => rw [hx]
      exact splitSlash_append_slash _
    · exact ⟨[], by simp⟩
  cases cs with
  | nil =>
    obtain ⟨b, hb⟩ := hsuffix []
    exact ⟨[], b, by simpa [trimPrefixSlash] using hb⟩
  | cons c cs =>
    by_cases hc : c = '/'
    · subst hc
      obtain ⟨b, hb⟩ := hsuffix cs
      exact ⟨[[]], b, by simp [trimPrefixSlash, splitSlash, hb]⟩
    · obtain ⟨b, hb⟩ := hsuffix (c :: cs)
      exact ⟨[], b, by simpa [trimPrefixSlash, hc] using hb⟩

theorem lookup_putString (m : List (String × String)) (k k' v : String) :
    List.lookup k (putString m k' v) = if k = k' then some v else List.lookup k m := by
  induction m with
  | nil =>
    by_cases hk : k = k'
    · simp [putString, List.lookup, hk]
    · have : (k == k') = false := by simpa using hk
      simp [putString, List.lookup, hk, this]
  | cons p m ih =>
    obtain ⟨k0, v0⟩ := p
    unfold putString
    by_cases h0 : k0 = k'
    · subst h0
      by_cases hk : k = k0
      · simp [List.lookup, hk]
      · have : (k == k0) = false := by simpa using hk
        simp [List.lookup, hk, this]
    · simp only [h0, if_false]
      by_cases hk0 : k = k0
      · subst hk0
        simp [List.lookup, h0]
      · have : (k == k0) = false := by simpa using hk0
        simp [List.lookup, this, ih]

theorem lookup_deleteString (m : List (String × String)) (k k' : String) :
    List.lookup k (deleteString m k') = if k = k' then none else List.lookup k m := by
  induction m with
  | nil => simp [deleteString]
  | cons p m ih =>
    obtain ⟨k0, v0⟩ := p
    unfold deleteString
    by_cases h0 : k0 = k'
    · subst h0
      simp only [if_true, ih]
      by_cases hk : k = k0
      · simp [hk]
      · have : (k == k0) = false := by simpa using hk
        simp [hk, List.lookup, this]
    · simp only [h0, if_false]
      by_cases hk : k = k0
      · subst hk
        simp [List.lookup, h0]
      · have : (k == k0) = false := by simpa using hk
        simp [List.lookup, this, ih]


theorem parseComponents_lookup (components : List String) (subscriptionID : String)
    (componentMap : List (String × String)) :
    ∀ (sub : String) (m : List (String × String)) (k n : String),
      parseComponents components subscriptionID componentMap = Except.ok (sub, m) →
      List.lookup k m = some n →
      List.lookup k componentMap = some n ∨
        ∃ pre post, components = pre ++ k :: n :: post := by
  induction components, subscriptionID, componentMap using parseComponents.induct with
  | case1 subscriptionID componentMap =>
    intro sub m k n hp hl
    simp only [parseComponents, Except.ok.injEq, Prod.mk.injEq] at hp
    obtain ⟨-, rfl⟩ := hp
    exact Or.inl hl
  | case2 x subscriptionID componentMap =>
    intro sub m k n hp hl
    simp [parseComponents] at hp
  | case3 key value rest subscriptionID componentMap h1 =>
    intro sub m k n hp hl
    simp [parseComponents, h1] at hp
  | case4 key value rest subscriptionID componentMap h1 h2 ih =>
    intro sub m k n hp hl
    rw [parseComponents, if_neg h1, if_pos h2] at hp
    rcases ih _ _ _ _ hp hl with h | ⟨pre, post, h⟩
    · exact Or.inl h
    · exact Or.inr ⟨key :: value :: pre, post, by simp [h]⟩
  | case5 key value rest subscriptionID componentMap h1 h2 ih =>
    intro sub m k n hp hl
    rw [parseComponents, if_neg h1, if_neg h2] at hp
    rcases ih _ _ _ _ hp hl with h | ⟨pre, post, h⟩
    · rw [lookup_putString] at h
      split_ifs at h with hk
      · simp only [Option.some.injEq] at h
        subst hk h
        exact Or.inr ⟨[], rest, rfl⟩
      · exact Or.inl h
    · exact Or.inr ⟨key :: value :: pre, post, by simp [h]⟩


theorem lookup_of_deleteString (m : List (String × String)) (k k' n : String)
    (hl : List.lookup k (deleteString m k') = some n) : List.lookup k m = some n := by
  rw [lookup_deleteString] at hl
  split_ifs at hl
  exact hl

/-- A key/value pair of the path of a parsed ID stands in the ID, the value
right after the key. -/
theorem ParseAzureResourceID_path (input : String) (id : ResourceID) (k n : String)
    (hp : ParseAzureResourceID input = Except.ok id) (hl : List.lookup k id.Path = some n) :
    ∃ pre post, idSegments input = pre ++ k :: n :: post := by
  unfold ParseAzureResourceID at hp
  dsimp only at hp
  split_ifs at hp with h1 h2 h3
  rcases hc : parseComponents
      ((splitSlash (trimSuffixSlash (trimPrefixSlash input.data))).map String.mk) "" []
    with e | ⟨sub, m⟩
  · simp [hc] at hp
  · rw [hc] at hp
    dsimp only at hp
    have hm : List.lookup k m = some n := by
      split_ifs at hp
      rcases h4 : List.lookup "resourceGroups" m with _ | rg
      · rw [h4] at hp
        dsimp only at hp
        rcases h5 : List.lookup "resourcegroups" m with _ | rg
        · simp [h5] at hp
        · rw [h5] at hp
          simp only [Except.ok.injEq] at hp
          subst hp
          exact lookup_of_deleteString _ _ _ _ (lookup_of_deleteString _ _ _ _ hl)
      · rw [h4] at hp
        simp only [Except.ok.injEq] at hp
        subst hp
        exact lookup_of_deleteString _ _ _ _ (lookup_of_deleteString _ _ _ _ hl)
    rcases parseComponents_lookup _ _ _ _ _ _ _ hc hm with h | ⟨pre, post, h⟩
    · simp at h
    · obtain ⟨a, b, hab⟩ := splitSlash_trim input.data
      refine ⟨a.map String.mk ++ pre, post ++ b.map String.mk, ?_⟩
      unfold idSegments
      rw [hab, List.map_append, List.map_append, h]
      simp

theorem ParsePointToSiteVPNGatewayID_ok (input : String) (r : PointToSiteVPNGatewayResourceID)
    (hp : ParsePointToSiteVPNGatewayID input = Except.ok r) :
    r.Name ≠ "" ∧ ∃ pre post, idSegments input = pre ++ "p2sVpnGateways" :: r.Name :: post := by
  unfold ParsePointToSiteVPNGatewayID at hp
  rcases hid : ParseAzureResourceID input with e | id
  · simp [hid] at hp
  · rw [hid] at hp
    dsimp only at hp
    split_ifs at hp with hn
    simp only [Except.ok.injEq] at hp
    subst hp
    refine ⟨hn, ?_⟩
    dsimp only at hn ⊢
    rcases hl : List.lookup "p2sVpnGateways" id.Path with _ | n
    · simp [ResourceID.path, hl] at hn
    · have : id.path "p2sVpnGateways" = n := by simp [ResourceID.path, hl]
      rw [this]
      exact ParseAzureResourceID_path input id _ n hid hl

theorem trimSuffixSlash_of_getLast (cs : List Char) (h : cs.getLast? ≠ some '/') :
    trimSuffixSlash cs = cs := by
  simp [trimSuffixSlash, h]

theorem gatewayId_components (S G N : String) (hN : N ≠ "")
    (hS' : '/' ∉ S.data) (hG' : '/' ∉ G.data) (hN' : '/' ∉ N.data) :
    (splitSlash (trimSuffixSlash (trimPrefixSlash
      ("/subscriptions/" ++ S ++ "/resourceGroups/" ++ G ++ "/p2sVpnGateways/" ++ N).data))).map
        String.mk =
      ["subscriptions", S, "resourceGroups", G, "p2sVpnGateways", N] := by
  have h1 : "/subscriptions/".data = '/' :: ("subscriptions".data ++ ['/']) := by decide
  have h2 : "/resourceGroups/".data = '/' :: ("resourceGroups".data ++ ['/']) := by decide
  have h3 : "/p2sVpnGateways/".data = '/' :: ("p2sVpnGateways".data ++ ['/']) := by decide
  have n1 : '/' ∉ "subscriptions".data := by decide
  have n2 : '/' ∉ "resourceGroups".data := by decide
  have n3 : '/' ∉ "p2sVpnGateways".data := by decide
  have hdata : ("/subscriptions/" ++ S ++ "/resourceGroups/" ++ G ++ "/p2sVpnGateways/" ++
      N).data = '/' :: ("subscriptions".data ++ '/' :: (S.data ++ '/' :: ("resourceGroups".data ++
        '/' :: (G.data ++ '/' :: ("p2sVpnGateways".data ++ '/' :: N.data))))) := by
    simp only [String.data_append, h1, h2, h3]
    simp
  have hNd : N.data ≠ [] := by
    intro h
    apply hN
    cases N
    simp_all
  have hlast : ("subscriptions".data ++ '/' :: (S.data ++ '/' :: ("resourceGroups".data ++
        '/' :: (G.data ++ '/' :: ("p2sVpnGateways".data ++ '/' :: N.data))))).getLast? ≠
      some '/' := by
    intro hl
    have hshape : "subscriptions".data ++ '/' :: (S.data ++ '/' :: ("resourceGroups".data ++
        '/' :: (G.data ++ '/' :: ("p2sVpnGateways".data ++ '/' :: N.data)))) =
        ("subscriptions".data ++ '/' :: (S.data ++ '/' :: ("resourceGroups".data ++
        '/' :: (G.data ++ '/' :: ("p2sVpnGateways".data ++ ['/']))))) ++ N.data := by
      simp
    rw [hshape, List.getLast?_append_of_ne_nil _ hNd] at hl
    exact hN' (List.mem_of_getLast?_eq_some hl)
  rw [hdata]
  simp only [trimPrefixSlash, if_true]
  rw [trimSuffixSlash_of_getLast _ hlast]
  rw [splitSlash_append _ _ n1, splitSlash_append _ _ hS', splitSlash_append _ _ n2,
    splitSlash_append _ _ hG', splitSlash_append _ _ n3, splitSlash_of_not_mem _ hN']
  rfl

/-- The model of the parser on the inputs of `TestParsePointToSiteVPNGateway`. -/
theorem ParsePointToSiteVPNGatewayID_test_table :
    (∃ e, ParsePointToSiteVPNGatewayID "" = Except.error e) ∧
    (∃ e, ParsePointToSiteVPNGatewayID
      "/subscriptions/00000000-0000-0000-0000-000000000000/resourceGroups/foo" =
        Except.error e) ∧
    (∃ e, ParsePointToSiteVPNGatewayID
      "/subscriptions/00000000-0000-0000-0000-000000000000/resourceGroups/foo/p2sVpnGateways/" =
        Except.error e) ∧
    ParsePointToSiteVPNGatewayID
      "/subscriptions/00000000-0000-0000-0000-000000000000/resourceGroups/foo/p2sVpnGateways/example" =
        Except.ok
          { Base := { ResourceGroup := "foo", Path := [("p2sVpnGateways", "example")] }
            Name := "example" } :=
  ⟨⟨_, rfl⟩, ⟨_, rfl⟩, ⟨_, rfl⟩, rfl⟩

theorem reservedTagNameLoop_length (keys : List String) (errors : List String) :
    (reservedTagNameLoop keys errors).length =
      errors.length + (keys.filter (fun k => equalFold k "$type")).length := by
  induction keys generalizing errors with
  | nil => simp [reservedTagNameLoop]
  | cons k rest ih =>
    unfold reservedTagNameLoop
    by_cases hk : equalFold k "$type" = true
    · simp only [hk, if_true, ih, List.length_append, List.length_singleton, List.filter_cons]
      simp only [List.length_cons]
      omega
    · simp only [hk, if_false, List.filter_cons]
      exact ih errors

theorem length_filter_eq_one_of_unique (keys : List String) (p : String → Bool)
    (hnd : keys.Nodup) (k : String) (hk : k ∈ keys) (hpk : p k = true)
    (huniq : ∀ k' ∈ keys, p k' = true → k' = k) : (keys.filter p).length = 1 := by
  have hnd' : (keys.filter p).Nodup := hnd.filter _
  have hmem : k ∈ keys.filter p := List.mem_filter.mpr ⟨hk, hpk⟩
  have hall : ∀ x ∈ keys.filter p, x = k := fun x hx =>
    huniq x (List.mem_filter.mp hx).1 (List.mem_filter.mp hx).2
  rcases hf : keys.filter p with _ | ⟨a, l⟩
  · rw [hf] at hmem
    simp at hmem
  · rw [hf] at hnd' hall
    cases l with
    | nil => rfl
    | cons b l =>
      have ha := hall a (by simp)
      have hb := hall b (by simp)
      rw [List.nodup_cons] at hnd'
      exact absurd (by rw [ha, hb]; simp) hnd'.1

/-- The model of the validation on the cases of
`TestValidateMonitorMetricAlertRuleTags`. -/
theorem validateMonitorMetricAlertRuleTags_test_table :
    (validateMonitorMetricAlertRuleTags acceptTags [("hello", Value.str "world")]
      "azurerm_metric_alert_rule").2.length = 0 ∧
    (validateMonitorMetricAlertRuleTags acceptTags [("$Type", Value.str "hello/world")]
      "azurerm_metric_alert_rule").2.length = 1 ∧
    (validateMonitorMetricAlertRuleTags acceptTags [("$type", Value.str "hello/world")]
      "azurerm_metric_alert_rule").2.length = 1 ∧
    (validateMonitorMetricAlertRuleTags acceptTags
      [("hello", Value.str "world"), ("foo", Value.str "bar")]
      "azurerm_metric_alert_rule").2.length = 0 ∧
    (validateMonitorMetricAlertRuleTags acceptTags
      [("hello", Value.str "world"), ("$type", Value.str "Microsoft.Foo/Bar")]
      "azurerm_metric_alert_rule").2.length = 1 := by
  decide

/-! ## The claims on the refresh function, the parsers, the validators and the
advisor data source -/

/-- Claim C11: the refresh function reports the state `Error`, with an error
and a nil result, when the `Get` fails; the provisioning state of the response
when the response has properties and that state is not empty; and `Pending`
otherwise. So after a successful `Get` the reported state is the target
`Succeeded` exactly when the provisioning state is `Succeeded`, and a response
without a provisioning state is reported in one of the pending states. -/
theorem C11_refresh_func_reports_state (h : Helpers) (resourceGroupName name : String)
    (get : PrivateLinkService × Option String) :
    (∀ e, get.2 = some e →
      privateLinkServiceWaitForReadyRefreshFunc h resourceGroupName name get =
        (none, "Error", some ("Error issuing read request in " ++
          "privateLinkServiceWaitForReadyRefreshFunc " ++ h.quote name ++ " (Resource Group " ++
          h.quote resourceGroupName ++ "): " ++ e))) ∧
    (∀ props, get.2 = none → get.1.Properties = some props → props.ProvisioningState ≠ "" →
      privateLinkServiceWaitForReadyRefreshFunc h resourceGroupName name get =
        (some get.1, props.ProvisioningState, none)) ∧
    (get.2 = none →
      (get.1.Properties = none ∨
        ∃ props, get.1.Properties = some props ∧ props.ProvisioningState = "") →
      privateLinkServiceWaitForReadyRefreshFunc h resourceGroupName name get =
        (some get.1, "Pending", none)) ∧
    (get.2 = none →
      ((privateLinkServiceWaitForReadyRefreshFunc h resourceGroupName name get).2.1 ∈
          privateLinkServiceTargetStates ↔
        ∃ props, get.1.Properties = some props ∧ props.ProvisioningState = "Succeeded")) ∧
    (get.2 = none →
      (get.1.Properties = none ∨
        ∃ props, get.1.Properties = some props ∧ props.ProvisioningState = "") →
      (privateLinkServiceWaitForReadyRefreshFunc h resourceGroupName name get).2.1 ∈
        privateLinkServicePendingStates) := by
  have hpend : get.2 = none →
      (get.1.Properties = none ∨
        ∃ props, get.1.Properties = some props ∧ props.ProvisioningState = "") →
      privateLinkServiceWaitForReadyRefreshFunc h resourceGroupName name get =
        (some get.1, "Pending", none) := by
    intro hg hp
    rcases hp with hp | ⟨props, hp, hs⟩
    · simp [privateLinkServiceWaitForReadyRefreshFunc, hg, hp]
    · simp [privateLinkServiceWaitForReadyRefreshFunc, hg, hp, hs]
  refine ⟨?_, ?_, hpend, ?_, ?_⟩
  · intro e he
    simp only [privateLinkServiceWaitForReadyRefreshFunc, he]
  · intro props hg hp hs
    simp [privateLinkServiceWaitForReadyRefreshFunc, hg, hp, hs]
  · intro hg
    rcases hp : get.1.Properties with _ | props
    · rw [hpend hg (Or.inl hp)]
      simp [privateLinkServiceTargetStates]
    · by_cases hs : props.ProvisioningState = ""
      · rw [hpend hg (Or.inr ⟨props, hp, hs⟩)]
        simp [privateLinkServiceTargetStates, hs]
      · simp [privateLinkServiceWaitForReadyRefreshFunc, hg, hp, hs,
          privateLinkServiceTargetStates]
  · intro hg hp
    rw [hpend hg hp]
    simp [privateLinkServicePendingStates]

/-- Claim C11 at a response whose provisioning state is `Succeeded`. -/
theorem C11_witness :
    privateLinkServiceWaitForReadyRefreshFunc sampleHelpers "group1" "service1"
      ({ sampleService with Properties := some sampleProperties }, none) =
      (some { sampleService with Properties := some sampleProperties }, "Succeeded", none) :=
  (C11_refresh_func_reports_state sampleHelpers "group1" "service1"
    ({ sampleService with Properties := some sampleProperties }, none)).2.1
    sampleProperties rfl rfl (by decide)

/-- Claim C12: parsing fails for the empty string, for every ID none of whose
segments is `p2sVpnGateways`, and for every ID in which each `p2sVpnGateways`
segment is followed by no segment or by an empty one; the two IDs of the test
are among them. -/
theorem C12_parse_gateway_id_errors :
    (∃ e, ParsePointToSiteVPNGatewayID "" = Except.error e) ∧
    (∀ input, "p2sVpnGateways" ∉ idSegments input →
      ∃ e, ParsePointToSiteVPNGatewayID input = Except.error e) ∧
    (∀ input,
      (∀ pre v post, idSegments input = pre ++ "p2sVpnGateways" :: v :: post → v = "") →
      ∃ e, ParsePointToSiteVPNGatewayID input = Except.error e) ∧
    (∃ e, ParsePointToSiteVPNGatewayID
      "/subscriptions/00000000-0000-0000-0000-000000000000/resourceGroups/foo" =
        Except.error e) ∧
    (∃ e, ParsePointToSiteVPNGatewayID
      "/subscriptions/00000000-0000-0000-0000-000000000000/resourceGroups/foo/p2sVpnGateways/" =
        Except.error e) := by
  have hmain : ∀ input,
      (∀ pre v post, idSegments input = pre ++ "p2sVpnGateways" :: v :: post → v = "") →
      ∃ e, ParsePointToSiteVPNGatewayID input = Except.error e := by
    intro input hv
    rcases hp : ParsePointToSiteVPNGatewayID input with e | r
    · exact ⟨e, rfl⟩
    · obtain ⟨hn, pre, post, hseg⟩ := ParsePointToSiteVPNGatewayID_ok input r hp
      exact absurd (hv pre r.Name post hseg) hn
  refine ⟨⟨_, rfl⟩, ?_, hmain, ⟨_, rfl⟩, ⟨_, rfl⟩⟩
  intro input hno
  apply hmain
  intro pre v post hseg
  exact absurd (by rw [hseg]; simp) hno

/-- Claim C12 at an ID without a `p2sVpnGateways` segment. -/
theorem C12_witness :
    ∃ e, ParsePointToSiteVPNGatewayID "/subscriptions/sub1/resourceGroups/foo/virtualHubs/hub1" =
      Except.error e :=
  C12_parse_gateway_id_errors.2.1 "/subscriptions/sub1/resourceGroups/foo/virtualHubs/hub1"
    (by decide)

/-- Claim C13: for non-empty `S`, `G` and `N` without `/`, parsing the ID
`/subscriptions/S/resourceGroups/G/p2sVpnGateways/N` succeeds, with the name `N`
and the resource group `G`. -/
theorem C13_parse_gateway_id_succeeds (S G N : String) (hS : S ≠ "") (hG : G ≠ "") (hN : N ≠ "")
    (hS' : '/' ∉ S.data) (hG' : '/' ∉ G.data) (hN' : '/' ∉ N.data) :
    ∃ r, ParsePointToSiteVPNGatewayID
        ("/subscriptions/" ++ S ++ "/resourceGroups/" ++ G ++ "/p2sVpnGateways/" ++ N) =
        Except.ok r ∧ r.Name = N ∧ r.Base.ResourceGroup = G := by
  have hcomp := gatewayId_components S G N hN hS' hG' hN'
  have h1 : "/subscriptions/".data = '/' :: ("subscriptions".data ++ ['/']) := by decide
  have hne : ("/subscriptions/" ++ S ++ "/resourceGroups/" ++ G ++ "/p2sVpnGateways/" ++ N) ≠
      "" := by
    intro h
    have := congrArg String.data h
    simp [String.data_append, h1] at this
  have hhead : ("/subscriptions/" ++ S ++ "/resourceGroups/" ++ G ++ "/p2sVpnGateways/" ++
      N).data.head? = some '/' := by
    simp [String.data_append, h1]
  have hparse : ParseAzureResourceID
      ("/subscriptions/" ++ S ++ "/resourceGroups/" ++ G ++ "/p2sVpnGateways/" ++ N) =
      Except.ok { ResourceGroup := G, Path := [("p2sVpnGateways", N)] } := by
    unfold ParseAzureResourceID
    simp only [hne, if_false, hhead, ne_eq, not_true_eq_false, hcomp]
    simp [parseComponents, hS, hG, hN, putString, deleteString, List.lookup]
  refine ⟨{ Base := { ResourceGroup := G, Path := [("p2sVpnGateways", N)] }, Name := N }, ?_,
    rfl, rfl⟩
  unfold ParsePointToSiteVPNGatewayID
  simp [hparse, ResourceID.path, List.lookup, hN]

/-- Claim C13 at the ID of the test: `G` is `foo`, `N` is `example`. -/
theorem C13_witness :
    ∃ r, ParsePointToSiteVPNGatewayID
        ("/subscriptions/" ++ "00000000-0000-0000-0000-000000000000" ++ "/resourceGroups/" ++
          "foo" ++ "/p2sVpnGateways/" ++ "example") =
        Except.ok r ∧ r.Name = "example" ∧ r.Base.ResourceGroup = "foo" :=
  C13_parse_gateway_id_succeeds "00000000-0000-0000-0000-000000000000" "foo" "example"
    (by decide) (by decide) (by decide) (by decide) (by decide) (by decide)

/-- Claim C14: on a tag map that the general validation accepts, the
validation of the tags of a metric alert rule returns no error when no key
equals `$type` without regard to letter case, and exactly one error when exactly
one key does, whatever the other tags are; `$Type` and `$type` are such keys. -/
theorem C14_reserved_tag_name_rejected (tagsValidate : TfMap → String → List String × List String) (v : TfMap)
    (f : String) (hvalid : (tagsValidate v f).2 = []) :
    ((∀ k ∈ v.keys, equalFold k "$type" = false) →
      (validateMonitorMetricAlertRuleTags tagsValidate v f).2 = []) ∧
    (∀ k ∈ v.keys, equalFold k "$type" = true →
      (∀ k' ∈ v.keys, equalFold k' "$type" = true → k' = k) →
      (validateMonitorMetricAlertRuleTags tagsValidate v f).2.length = 1) ∧
    equalFold "$Type" "$type" = true ∧ equalFold "$type" "$type" = true := by
  have hlen : (validateMonitorMetricAlertRuleTags tagsValidate v f).2.length =
      (v.keys.filter (fun k => equalFold k "$type")).length := by
    simp [validateMonitorMetricAlertRuleTags, reservedTagNameLoop_length, hvalid]
  refine ⟨?_, ?_, by decide, by decide⟩
  · intro hno
    have : v.keys.filter (fun k => equalFold k "$type") = [] := by
      rw [List.filter_eq_nil_iff]
      intro k hk
      simp [hno k hk]
    rw [this] at hlen
    exact List.length_eq_zero.mp hlen
  · intro k hk hpk huniq
    rw [hlen]
    exact length_filter_eq_one_of_unique v.keys _ (List.nodup_dedup _) k hk hpk huniq

/-- Claim C14 at a map with the tags `hello` and `$type`. -/
theorem C14_witness :
    (validateMonitorMetricAlertRuleTags acceptTags
      [("hello", Value.str "world"), ("$type", Value.str "Microsoft.Foo/Bar")]
      "azurerm_metric_alert_rule").2.length = 1 :=
  (C14_reserved_tag_name_rejected acceptTags
    [("hello", Value.str "world"), ("$type", Value.str "Microsoft.Foo/Bar")]
    "azurerm_metric_alert_rule" rfl).2.1 "$type" (by decide) (by decide) (by decide)

/-- Claim C15: the validator of `private_ip_address_version` accepts a string
exactly when it is `IPv4`, the default of the attribute is `IPv4`, and the
default passes the validator. -/
theorem C15_only_ipv4_is_accepted :
    ∃ validate, privateIpAddressVersionSchema.ValidateFunc = some validate ∧
      (∀ v k : String, (validate (Value.str v) k).2 = [] ↔ v = "IPv4") ∧
      privateIpAddressVersionSchema.Default = some (Value.str "IPv4") ∧
      (∀ dflt k, privateIpAddressVersionSchema.Default = some dflt →
        (validate dflt k).2 = []) := by
  refine ⟨StringInSlice [networkIPv4] false, rfl, ?_, rfl, ?_⟩
  · intro v k
    by_cases hv : v = "IPv4" <;> simp [StringInSlice, networkIPv4, hv]
  · intro dflt k hd
    simp only [privateIpAddressVersionSchema, Option.some.injEq] at hd
    subst hd
    simp [StringInSlice, networkIPv4]

/-- Claim C16, the code at three failing inputs: a successful `Get` whose
response has a nil `Location`, one whose properties have a nil `AutoApproval`,
and one whose properties have a nil `Visibility`. Read dereferences the nil
pointer each time; with every pointer set it returns nil. -/
theorem C16_read_panics_on_nil_pointers :
    noLocationGet.2 = none ∧
    (resourceArmPrivateLinkServiceRead sampleHelpers noLocationGet sampleState).ret = Ret.panic ∧
    noAutoApprovalGet.2 = none ∧
    (resourceArmPrivateLinkServiceRead sampleHelpers noAutoApprovalGet sampleState).ret =
      Ret.panic ∧
    noVisibilityGet.2 = none ∧
    (resourceArmPrivateLinkServiceRead sampleHelpers noVisibilityGet sampleState).ret =
      Ret.panic ∧
    (resourceArmPrivateLinkServiceRead sampleHelpers
      ({ sampleService with Properties := some sampleProperties }, none) sampleState).ret =
      Ret.nil := by
  decide

/-- Claim C17: when the ID of the network interface parses and the `Get`
succeeds, `getPrivateIpAddress` gives the address of the IP configuration at
index 0 when that one has properties with a non-nil, non-empty address, and the
empty string in every other case; two responses whose lists start with the same
configuration give the same result. When the ID does not parse or the `Get`
fails the result is the empty string. -/
theorem C17_private_ip_address_of_first_configuration (h : Helpers) (get : Interface × Option String) (networkInterfaceId : String)
    (st : St) :
    (∀ id, h.ParseAzureResourceID networkInterfaceId = Except.ok id → get.2 = none →
      (getPrivateIpAddress h get networkInterfaceId st).2 =
        firstConfigurationPrivateIpAddress get.1) ∧
    (∀ id (get' : Interface × Option String) props props' config rest rest',
      h.ParseAzureResourceID networkInterfaceId = Except.ok id →
      get.2 = none → get'.2 = none →
      get.1.Properties = some props → get'.1.Properties = some props' →
      props.IPConfigurations = some (config :: rest) →
      props'.IPConfigurations = some (config :: rest') →
      (getPrivateIpAddress h get networkInterfaceId st).2 =
        (getPrivateIpAddress h get' networkInterfaceId st).2) ∧
    ((∃ e, h.ParseAzureResourceID networkInterfaceId = Except.error e) →
      (getPrivateIpAddress h get networkInterfaceId st).2 = "") ∧
    (get.2 ≠ none → (getPrivateIpAddress h get networkInterfaceId st).2 = "") := by
  refine ⟨fun id hp hg => getPrivateIpAddress_ok h get _ st id hp hg, ?_, ?_, ?_⟩
  · intro id get' props props' config rest rest' hp hg hg' h1 h1' h2 h2'
    rw [getPrivateIpAddress_ok h get _ st id hp hg, getPrivateIpAddress_ok h get' _ st id hp hg']
    simp [firstConfigurationPrivateIpAddress, h1, h1', h2, h2']
  · rintro ⟨e, he⟩
    exact getPrivateIpAddress_unparsed h get _ st e he
  · intro hg
    exact getPrivateIpAddress_failed h get _ st hg

/-- Claim C17 at an interface with two IP configurations. -/
theorem C17_witness :
    (getPrivateIpAddress sampleHelpers (sampleInterface, none)
      "/subscriptions/sub1/resourceGroups/group1/providers/Microsoft.Network/networkInterfaces/nic1"
      { d := sampleEndpointData, trace := [] }).2 = "10.5.1.4" :=
  ((C17_private_ip_address_of_first_configuration sampleHelpers (sampleInterface, none)
      "/subscriptions/sub1/resourceGroups/group1/providers/Microsoft.Network/networkInterfaces/nic1"
      { d := sampleEndpointData, trace := [] }).1
    { ResourceGroup := "group1"
      Path := [("privateLinkServices", "service1"), ("networkInterfaces", "nic1")] }
    rfl rfl).trans (by decide)

/-- Claim C18: the read of the recommendations never panics: every
recommendation its loop hands on to the flattening has a non-nil, non-empty
name, so the flattening does not dereference a nil name. The loop returns the
error `advisor Recommendation Name was nil or empty` at the first recommendation
with a nil or empty name that it reaches without a pending listing error, and
the listing error when one is pending. -/
theorem C18_flatten_never_sees_nil_name (h : Helpers) (c : AdvisorReadCalls) (d : ResourceData) :
    (dataSourceArmAdvisorRecommendationsRead h c d).ret ≠ Ret.panic ∧
    (∀ st : St,
      (∀ v ∈ (advisorLoop c.listComplete.1 c.listComplete.2 [] st).2.1,
        ∃ n, v.Name = some n ∧ n ≠ "") ∧
      flattenAzureRmAdvisorRecommendations
        (advisorLoop c.listComplete.1 c.listComplete.2 [] st).2.1 ≠ none) ∧
    (∀ value nextErr next recommends st, (value.Name = none ∨ value.Name = some "") →
      advisorLoop (RecommendationIterator.item value nextErr next) none recommends st =
        (st, recommends, some (Ret.error "advisor Recommendation Name was nil or empty"))) ∧
    (∀ value nextErr next e recommends st,
      advisorLoop (RecommendationIterator.item value nextErr next) (some e) recommends st =
        (st, recommends, some (Ret.error ("loading Advisor Recommendation List: " ++ e)))) := by
  have hnamed : ∀ st : St, ∀ v ∈ (advisorLoop c.listComplete.1 c.listComplete.2 [] st).2.1,
      HasName v := fun st => advisorLoop_named _ _ [] st (by simp)
  refine ⟨?_, fun st => ⟨hnamed st, flattenAzureRmAdvisorRecommendations_named _ (hnamed st)⟩,
    ?_, ?_⟩
  · unfold dataSourceArmAdvisorRecommendationsRead
    dsimp only
    generalize hst : St.call _ _ = st0
    have hflat := flattenAzureRmAdvisorRecommendations_named _ (hnamed st0)
    rcases hloop : advisorLoop c.listComplete.1 c.listComplete.2 [] st0 with ⟨st, recs, _ | ret⟩
    · rw [hloop] at hflat
      dsimp only at hflat ⊢
      rcases hf : flattenAzureRmAdvisorRecommendations recs with _ | flat
      · exact absurd hf hflat
      · dsimp only
        rcases hset : St.Set h st "recommendations" (AttrValue.mapList flat) with ⟨st', _ | e⟩ <;>
          simp [St.done]
    · obtain ⟨msg, hmsg⟩ := advisorLoop_error _ _ [] st0 ret (by rw [hloop])
      subst hmsg
      simp [St.done]
  · intro value nextErr next recommends st hn
    simp [advisorLoop, hn]
  · intro value nextErr next e recommends st
    simp only [advisorLoop]

/-- Claim C18 at an iterator that yields a recommendation without a name. -/
theorem C18_witness :
    advisorLoop (RecommendationIterator.item unnamedRecommendation none
        RecommendationIterator.done) none [] { d := sampleAdvisorData, trace := [] } =
      ({ d := sampleAdvisorData, trace := [] }, [],
        some (Ret.error "advisor Recommendation Name was nil or empty")) :=
  (C18_flatten_never_sees_nil_name sampleHelpers listFailedCalls sampleAdvisorData).2.2.1
    unnamedRecommendation none RecommendationIterator.done []
    { d := sampleAdvisorData, trace := [] } (Or.inl rfl)

/-- Claim C19: `expandAzureRmAdvisorRecommendationsMapString(t, xs)` is the
empty string for the empty list, and otherwise `(`, the clauses `t eq 'v'` for
the values of `xs` in order with ` or ` between them, and `)`; it is empty
exactly when `xs` is empty, and a list of one value gives `(t eq 'v')`. -/
theorem C19_expand_map_string (t : String) (xs : List String) :
    (xs = [] → expandAzureRmAdvisorRecommendationsMapString t xs = "") ∧
    (xs ≠ [] → expandAzureRmAdvisorRecommendationsMapString t xs =
      "(" ++ joinClauses t xs ++ ")") ∧
    (expandAzureRmAdvisorRecommendationsMapString t xs = "" ↔ xs = []) ∧
    (∀ v, expandAzureRmAdvisorRecommendationsMapString t [v] = "(" ++ t ++ " eq '" ++ v ++ "')") := by
  refine ⟨?_, ?_, ?_, ?_⟩
  · rintro rfl
    rfl
  · intro hx
    obtain ⟨v, rest, rfl⟩ := List.exists_cons_of_ne_nil hx
    exact expandAzureRmAdvisorRecommendationsMapString_cons t v rest
  · cases xs with
    | nil => simp [expandAzureRmAdvisorRecommendationsMapString]
    | cons v rest =>
      rw [expandAzureRmAdvisorRecommendationsMapString_cons]
      simp [paren_ne_empty]
  · intro v
    rw [expandAzureRmAdvisorRecommendationsMapString_cons]
    simp [joinClauses, advisorClause, String.append_assoc]

/-- Claim C19 at a list of two categories. -/
theorem C19_witness :
    expandAzureRmAdvisorRecommendationsMapString "Category" ["Cost", "Security"] =
      "(" ++ joinClauses "Category" ["Cost", "Security"] ++ ")" :=
  (C19_expand_map_string "Category" ["Cost", "Security"]).2.1 (by decide)

/-- Claim C20: the first call of the read of the recommendations is the
listing call, and the filter it gets is the empty string when both filter lists
are empty, the one clause group when one list is empty, and the `Category`
group, ` and `, the `ResourceGroup` group when neither is; the filter neither
starts nor ends with ` and `. -/
theorem C20_filter_passed_to_listing (h : Helpers) (c : AdvisorReadCalls) (d : ResourceData) :
    (∃ rest, (dataSourceArmAdvisorRecommendationsRead h c d).trace =
      Event.listComplete (advisorFilterSpec (d.GetSet "filter_by_category").List
        (d.GetSet "filter_by_resource_groups").List) :: rest) ∧
    (∀ s, advisorFilterSpec (d.GetSet "filter_by_category").List
        (d.GetSet "filter_by_resource_groups").List ≠ " and " ++ s ∧
      advisorFilterSpec (d.GetSet "filter_by_category").List
        (d.GetSet "filter_by_resource_groups").List ≠ s ++ " and ") := by
  refine ⟨?_, fun s => advisorFilterSpec_no_and _ _ s⟩
  unfold dataSourceArmAdvisorRecommendationsRead
  dsimp only
  generalize (d.GetSet "filter_by_category").List = cats
  generalize (d.GetSet "filter_by_resource_groups").List = rgs
  generalize hf : String.intercalate " and " _ = f
  have hspec : f = advisorFilterSpec cats rgs := by
    rw [← hf]
    cases cats with
    | nil =>
      cases rgs with
      | nil => simp [expandAzureRmAdvisorRecommendationsMapString, advisorFilterSpec,
          String.intercalate]
      | cons r rs =>
        rw [expandAzureRmAdvisorRecommendationsMapString_cons]
        simp [expandAzureRmAdvisorRecommendationsMapString, advisorFilterSpec,
          String.intercalate, String.intercalate.go, paren_ne_empty]
    | cons v vs =>
      cases rgs with
      | nil =>
        rw [expandAzureRmAdvisorRecommendationsMapString_cons]
        simp [expandAzureRmAdvisorRecommendationsMapString, advisorFilterSpec,
          String.intercalate, String.intercalate.go, paren_ne_empty]
      | cons r rs =>
        rw [expandAzureRmAdvisorRecommendationsMapString_cons,
          expandAzureRmAdvisorRecommendationsMapString_cons]
        simp only [ne_eq, paren_ne_empty, not_false_eq_true, if_true, List.nil_append,
          List.cons_append, String.intercalate, String.intercalate.go, advisorFilterSpec]
        simp only [String.append_assoc]
  rw [← hspec]
  generalize hst : St.call _ _ = st0
  have htr0 : st0.trace = [Event.listComplete f] := by
    rw [← hst]
    simp [St.call]
  obtain ⟨post, hpost⟩ := advisorLoop_trace c.listComplete.1 c.listComplete.2 [] st0
  rcases hloop : advisorLoop c.listComplete.1 c.listComplete.2 [] st0 with ⟨st, recs, _ | ret⟩
  · rw [hloop] at hpost
    dsimp only at hpost ⊢
    rcases hfl : flattenAzureRmAdvisorRecommendations recs with _ | flat
    · exact ⟨post, by simp [St.done, hpost, htr0]⟩
    · dsimp only
      have hset := St.Set_trace h st "recommendations" (AttrValue.mapList flat)
      rcases hs : St.Set h st "recommendations" (AttrValue.mapList flat) with ⟨st', _ | e⟩
      · rw [hs] at hset
        dsimp only at hset ⊢
        exact ⟨_, by simp [St.done, St.SetId, hset, hpost, htr0]; rfl⟩
      · rw [hs] at hset
        dsimp only at hset ⊢
        exact ⟨_, by simp [St.done, hset, hpost, htr0]; rfl⟩
  · rw [hloop] at hpost
    dsimp only at hpost ⊢
    exact ⟨post, by simp [St.done, hpost, htr0]⟩

/-! ## Lemmas on the flattening of connections and recommendations and on the
expansion of the NAT IP configurations -/

theorem flattenServiceConnectionLoop_eq (privateIpAddress : String)
    (xs : List PrivateLinkServiceConnection) (acc : List TfMap) :
    flattenServiceConnectionLoop privateIpAddress xs acc =
      acc ++ xs.map (fun item => flattenServiceConnectionItem item privateIpAddress) := by
  induction xs generalizing acc with
  | nil => simp [flattenServiceConnectionLoop]
  | cons x rest ih => simp [flattenServiceConnectionLoop, ih]

theorem flattenServiceConnectionItem_at (item : PrivateLinkServiceConnection)
    (privateIpAddress : String) (k : String) :
    (flattenServiceConnectionItem item privateIpAddress).at k =
      connectionEntrySpec item privateIpAddress k := by
  obtain ⟨props, name⟩ := item
  rcases name with _ | n <;> rcases props with _ | ⟨_ | ⟨_ | status, _ | desc⟩⟩ <;>
    simp only [flattenServiceConnectionItem, connectionEntrySpec, connectionState, TfMap.put,
      TfMap.at_cons, TfMap.at_nil, Option.map] <;>
    (by_cases h1 : k = "private_ip_address"
     · subst h1; simp [TfMap.put, TfMap.at_cons, TfMap.at_nil]
     by_cases h2 : k = "name"
     · subst h2; simp [TfMap.put, TfMap.at_cons, TfMap.at_nil]
     by_cases h3 : k = "status"
     · subst h3; simp [TfMap.put, TfMap.at_cons, TfMap.at_nil]
     by_cases h4 : k = "request_response"
     · subst h4; simp [TfMap.put, TfMap.at_cons, TfMap.at_nil]
     simp [TfMap.put, TfMap.at_cons, TfMap.at_nil, h1, h2, h3, h4])

theorem flattenSuppressionSlice_eq (input : Option (List String)) :
    flattenSuppressionSlice input = input.getD [] := by
  rcases input with _ | xs
  · rfl
  · simp only [flattenSuppressionSlice, Option.getD_some]
    have := foldl_append_singleton (fun x : String => x) xs []
    simpa using this

theorem TfMap.at_isSome_iff (m : TfMap) (k : String) :
    (m.at k).isSome = true ↔ k ∈ m.map Prod.fst := by
  induction m with
  | nil => simp [TfMap.at_nil]
  | cons p m ih =>
    obtain ⟨k', v⟩ := p
    rw [TfMap.at_cons]
    by_cases hk : k = k'
    · simp [hk]
    · simp [hk, ih]

theorem flattenRecommendationItem_eq (v : ResourceRecommendationBase) (n : String)
    (hn : v.Name = some n) :
    flattenRecommendationItem v = some
      [("category", Value.str v.Category),
       ("description",
         Value.str ((v.ShortDescription.bind (fun sd => sd.Problem)).getD "")),
       ("impact", Value.str v.Impact),
       ("recommendation_name", Value.str n),
       ("recommendation_type_id", Value.str (v.RecommendationTypeID.getD "")),
       ("resource_name", Value.str (v.ImpactedValue.getD "")),
       ("resource_type", Value.str (v.ImpactedField.getD "")),
       ("suppression_names", Value.list (v.SuppressionIds.getD [])),
       ("updated_time", Value.str
         (match v.LastUpdated with
          | some t => if t.IsZero = true then "" else t.rfc3339
          | none => ""))] := by
  have hcat : (if v.Category ≠ "" then v.Category else "") = v.Category := by
    by_cases h : v.Category = "" <;> simp [h]
  have himp : (if v.Impact ≠ "" then v.Impact else "") = v.Impact := by
    by_cases h : v.Impact = "" <;> simp [h]
  have hsup : (if v.SuppressionIds ≠ none then flattenSuppressionSlice v.SuppressionIds
      else []) = v.SuppressionIds.getD [] := by
    rw [flattenSuppressionSlice_eq]
    rcases v.SuppressionIds with _ | xs <;> simp
  unfold flattenRecommendationItem
  simp only [hcat, himp, hsup, hn]
  rcases v.ShortDescription with _ | ⟨_ | p⟩ <;> rcases v.LastUpdated with _ | ⟨_ | _, text⟩ <;>
    simp

theorem flattenRecommendationItem_entry (v : ResourceRecommendationBase) (n : String)
    (hn : v.Name = some n) :
    ∃ m, flattenRecommendationItem v = some m ∧ IsRecommendationEntry v m := by
  refine ⟨_, flattenRecommendationItem_eq v n hn, ?_⟩
  refine ⟨rfl, ?_, ?_, ?_, ?_, ?_, ?_, ?_, ?_, ?_, ?_⟩
  · intro k
    rw [TfMap.at_isSome_iff]
    rfl
  all_goals simp [TfMap.at_cons, TfMap.at_nil, hn]

theorem flattenRecommendationsLoop_entries (recommends : List ResourceRecommendationBase)
    (result : List TfMap) (hrec : ∀ v ∈ recommends, v.Name ≠ none) :
    ∃ ms, flattenRecommendationsLoop recommends result = some (result ++ ms) ∧
      List.Forall₂ IsRecommendationEntry recommends ms := by
  induction recommends generalizing result with
  | nil => exact ⟨[], by simp [flattenRecommendationsLoop], List.Forall₂.nil⟩
  | cons v rest ih =>
    obtain ⟨n, hn⟩ := Option.ne_none_iff_exists'.mp (hrec v (by simp))
    obtain ⟨m, hm, hentry⟩ := flattenRecommendationItem_entry v n hn
    obtain ⟨ms, hms, hall⟩ := ih (result ++ [m]) (fun w hw => hrec w (by simp [hw]))
    refine ⟨m :: ms, ?_, List.Forall₂.cons hentry hall⟩
    simp [flattenRecommendationsLoop, hm, hms]

theorem expandIPConfigurationItem_fields (m : TfMap) (hm : HasNatIpFields m) :
    ∃ r, expandIPConfigurationItem m = some r ∧ IsExpandedNatIp m r := by
  obtain ⟨⟨n, hn⟩, ⟨a, ha⟩, ⟨v, hv⟩, ⟨s, hs⟩, ⟨b, hb⟩⟩ := hm
  have hexp : expandIPConfigurationItem m = some
      { Name := some n
        Properties := some
          { PrivateIPAddress := some a
            PrivateIPAllocationMethod := if a ≠ "" then "Static" else "Dynamic"
            PrivateIPAddressVersion := v
            Subnet := some { ID := some s }
            Primary := some b } } := by
    by_cases hae : a = "" <;>
      simp [expandIPConfigurationItem, hn, ha, hv, hs, hb, asString, asBool, hae,
        setPrivateIPAllocationMethod]
  refine ⟨_, hexp, n, a, v, s, b, _, hn, ha, hv, hs, hb, rfl, rfl, rfl, rfl, rfl, rfl, ?_, ?_⟩
  · by_cases hae : a = "" <;> simp [hae]
  · intro hae
    simp [hae]

theorem expandIPConfigurationLoop_fields (xs : List TfMap) (hx : ∀ m ∈ xs, HasNatIpFields m)
    (acc : List PrivateLinkServiceIPConfiguration) :
    ∃ rs, expandIPConfigurationLoop xs acc = some (acc ++ rs) ∧
      List.Forall₂ IsExpandedNatIp xs rs := by
  induction xs generalizing acc with
  | nil => exact ⟨[], by simp [expandIPConfigurationLoop], List.Forall₂.nil⟩
  | cons m rest ih =>
    obtain ⟨r, hr, hrm⟩ := expandIPConfigurationItem_fields m (hx m (by simp))
    obtain ⟨rs, hrs, hall⟩ := ih (fun m' hm' => hx m' (by simp [hm'])) (acc ++ [r])
    refine ⟨r :: rs, ?_, List.Forall₂.cons hrm hall⟩
    simp [expandIPConfigurationLoop, hr, hrs]

theorem HasNatIpShape.fields {m : TfMap} (hm : HasNatIpShape m) : HasNatIpFields m :=
  ⟨hm.1, hm.2.1, hm.2.2.1, hm.2.2.2.1, hm.2.2.2.2.1⟩

set_option maxRecDepth 100000 in
/-- The basic configuration for `rInt` 1 and the location `westus`. -/
theorem testAccAzureRMBotWebApp_basicConfig_example :
    testAccAzureRMBotWebApp_basicConfig 1 "westus" =
      "\n" ++
      "data \"azurerm_client_config\" \"current\" \x7b\x7d\n" ++
      "\n" ++
      "resource \"azurerm_resource_group\" \"test\" \x7b\n" ++
      "  name     = \"acctestRG-1\"\n" ++
      "  location = \"westus\"\n" ++
      "\x7d\n" ++
      "\n" ++
      "resource \"azurerm_bot_web_app\" \"test\" \x7b\n" ++
      "  name                = \"acctestdf1\"\n" ++
      "  location            = \"global\"\n" ++
      "  resource_group_name = \"$\x7bazurerm_resource_group.test.name\x7d\"\n" ++
      "  sku                 = \"F0\"\n" ++
      "  microsoft_app_id    = \"$\x7bdata.azurerm_client_config.current.service_principal_application_id\x7d\"\n" ++
      "\n" ++
      "  tags = \x7b\n" ++
      "    environment = \"production\"\n" ++
      "  \x7d\n" ++
      "\x7d\n" := by
  decide

/-! ## The claims on the flatten and expand functions and on the acceptance
tests -/

/-- Claim C21: for all connection lists, nil or not, and every private IP
address, the flattening returns the entries for the service connections, in
order, followed by those for the manual connections, in order, so as many
entries as there are connections; every entry holds the given address under
`private_ip_address`, and holds `name`, `status` and `request_response` exactly
when the name, the status and the description of the connection are not nil,
with their values, and no other key. -/
theorem C21_flatten_service_connections (serviceConnections manualServiceConnections :
      Option (List PrivateLinkServiceConnection)) (privateIpAddress : String) :
    dataSourceFlattenArmPrivateLinkEndpointServiceConnection serviceConnections
        manualServiceConnections privateIpAddress =
      (serviceConnections.getD []).map
          (fun item => flattenServiceConnectionItem item privateIpAddress) ++
        (manualServiceConnections.getD []).map
          (fun item => flattenServiceConnectionItem item privateIpAddress) ∧
    (dataSourceFlattenArmPrivateLinkEndpointServiceConnection serviceConnections
        manualServiceConnections privateIpAddress).length =
      (serviceConnections.getD []).length + (manualServiceConnections.getD []).length ∧
    (∀ item k, (flattenServiceConnectionItem item privateIpAddress).at k =
      connectionEntrySpec item privateIpAddress k) := by
  have heq : dataSourceFlattenArmPrivateLinkEndpointServiceConnection serviceConnections
        manualServiceConnections privateIpAddress =
      (serviceConnections.getD []).map
          (fun item => flattenServiceConnectionItem item privateIpAddress) ++
        (manualServiceConnections.getD []).map
          (fun item => flattenServiceConnectionItem item privateIpAddress) := by
    unfold dataSourceFlattenArmPrivateLinkEndpointServiceConnection
    rcases serviceConnections with _ | xs <;> rcases manualServiceConnections with _ | ys <;>
      simp [flattenServiceConnectionLoop_eq]
  refine ⟨heq, ?_, fun item k => flattenServiceConnectionItem_at item privateIpAddress k⟩
  rw [heq]
  simp

/-- Claim C22: on recommendations whose names are not nil the flattening does
not panic and returns one map for each recommendation, in order; the map has
exactly the nine keys of the schema, `recommendation_name` is the name, every
string field is the value of its source, the empty string for a nil or empty
source, and `suppression_names` holds the suppression ids in order. -/
theorem C22_flatten_recommendations (recommends : List ResourceRecommendationBase)
    (hrec : ∀ v ∈ recommends, v.Name ≠ none) :
    ∃ ms, flattenAzureRmAdvisorRecommendations recommends = some ms ∧
      ms.length = recommends.length ∧
      List.Forall₂ IsRecommendationEntry recommends ms := by
  obtain ⟨ms, hms, hall⟩ := flattenRecommendationsLoop_entries recommends [] hrec
  refine ⟨ms, ?_, hall.length_eq.symm, hall⟩
  unfold flattenAzureRmAdvisorRecommendations
  dsimp only
  split_ifs with h0
  · have : recommends = [] := List.length_eq_zero.mp h0
    subst this
    cases hall
    rfl
  · simpa using hms

/-- Claim C22 at a list of one recommendation. -/
theorem C22_witness :
    ∃ ms, flattenAzureRmAdvisorRecommendations [sampleRecommendation] = some ms ∧
      ms.length = [sampleRecommendation].length ∧
      List.Forall₂ IsRecommendationEntry [sampleRecommendation] ms :=
  C22_flatten_recommendations [sampleRecommendation]
    (fun v hv => by
      rw [List.mem_singleton] at hv
      subst hv
      decide)

/-- Claim C23: on a non-empty list of maps that hold the five fields of a
`nat_ip_configuration` element the expansion returns a list of the same length
and order; the name, the private IP address, its version, the subnet ID and the
primary flag of every element are set to the values of its map, and its
allocation method is `Static` exactly when the private IP address of the map is
not empty, `Dynamic` when it is empty. -/
theorem C23_expand_allocation_method (xs : List TfMap) (hne : xs ≠ []) (hx : ∀ m ∈ xs, HasNatIpFields m) :
    ∃ rs, expandArmPrivateLinkServiceIPConfiguration xs = some (some rs) ∧
      rs.length = xs.length ∧ List.Forall₂ IsExpandedNatIp xs rs := by
  obtain ⟨rs, hrs, hall⟩ := expandIPConfigurationLoop_fields xs hx []
  refine ⟨rs, ?_, hall.length_eq.symm, hall⟩
  have hlen : xs.length ≠ 0 := fun h => hne (List.length_eq_zero.mp h)
  simp only [List.nil_append] at hrs
  simp [expandArmPrivateLinkServiceIPConfiguration, hlen, hrs]

/-- Claim C23 at a list of one map. -/
theorem C23_witness :
    ∃ rs, expandArmPrivateLinkServiceIPConfiguration [sampleNatIp] = some (some rs) ∧
      rs.length = [sampleNatIp].length ∧ List.Forall₂ IsExpandedNatIp [sampleNatIp] rs :=
  C23_expand_allocation_method [sampleNatIp] (by simp)
    (fun m hm => by
      rw [List.mem_singleton] at hm
      subst hm
      exact sampleNatIp_shape.fields)

/-- Claim C24, the code at the failing input: the state holds a resource of
type `azurerm_bot_web_app` and the API `Get` for it succeeds with status 200.
The loop skips every resource whose type is not `azurerm_bot`, so the check
returns nil, whatever the API returns; the same resource under the type
`azurerm_bot` gives the error `Bot Web App still exists`. -/
theorem C24_destroy_check_skips_bot_web_app :
    leftoverWebApp.ResourceType = "azurerm_bot_web_app" ∧
    (botStillExists "acctestRG-1" "acctestdf1").2 = none ∧
    (botStillExists "acctestRG-1" "acctestdf1").1.Response = some 200 ∧
    testCheckAzureRMBotWebAppDestroy botStillExists [leftoverWebApp] = Ret.nil ∧
    (∀ get primary, testCheckAzureRMBotWebAppDestroy get
      [{ ResourceType := "azurerm_bot_web_app", Primary := primary }] = Ret.nil) ∧
    testCheckAzureRMBotWebAppDestroy botStillExists
      [{ leftoverWebApp with ResourceType := "azurerm_bot" }] =
      Ret.error "Bot Web App still exists:\n&botservice.BotProperties" := by
  refine ⟨by decide, by decide, by decide, by decide, ?_, by decide⟩
  intro get primary
  simp [testCheckAzureRMBotWebAppDestroy]

/-- Claim C25, the code at every input: the two configurations are built from
the same template with the same operands, so the configuration of the second
apply step of the update test is the string of the first step. -/
theorem C25_update_config_equals_basic_config :
    (∀ (rInt : Int) (location : String),
      testAccAzureRMBotWebApp_updateConfig rInt location =
        testAccAzureRMBotWebApp_basicConfig rInt location) ∧
    testAccAzureRMBotWebApp_updateConfig 1 "westus" =
      testAccAzureRMBotWebApp_basicConfig 1 "westus" :=
  ⟨fun _ _ => rfl, rfl⟩

end Azurerm
